import Mathlib

/-!
Shallow embedding of the render-lib rhythm-game runtime (prpr / phire crates),
covering the game-scene phase machine (`src/prpr/src/scene/game.rs`), the chart
construction and reset (`src/prpr/src/core/chart.rs`), note update and render
(`src/prpr/src/core/note.rs`) and the post-processing effects
(`src/phire/src/core/effect.rs`).

`f32` values are modelled as exact rationals (`ℚ`); machine floating point
rounding is outside the scope of the verified statements.
-/

namespace RenderLib

/-! ## Game scene: SimpleRecord (`scene/game.rs`, lines 56-81) -/

/-- `SimpleRecord` from `scene/game.rs`: score, accuracy and full-combo flag. -/
structure SimpleRecord where
  score : Int
  accuracy : ℚ
  full_combo : Bool
deriving DecidableEq, Repr

/-- `SimpleRecord::update` from `scene/game.rs` lines 64-81: takes the better
score/accuracy and ors the full-combo flag, returning the new record together
with the `changed` flag the Rust function returns. -/
def SimpleRecord.update (self other : SimpleRecord) : SimpleRecord × Bool :=
  let (score, c1) :=
    if other.score > self.score then (other.score, true) else (self.score, false)
  let (accuracy, c2) :=
    if other.accuracy > self.accuracy then (other.accuracy, true) else (self.accuracy, false)
  let (full_combo, c3) :=
    if other.full_combo && !self.full_combo then (other.full_combo, true)
    else (self.full_combo, false)
  (⟨score, accuracy, full_combo⟩, c1 || c2 || c3)

/-! ## Game scene: phase state machine (`scene/game.rs`, lines 1037-1136)

The per-frame `GameScene::update` drives the `State` machine
`Starting → BeforeMusic → Playing → Ending` (lines 1052-1134) and finally
stores `(time - offset).max(0.)` into `Resource::time` (lines 1135-1136).
The `TimeManager` itself is not under `src/`; per its specification,
`reset()` sets logical time to 0 and `seek_to(t)` makes `now()` return `t`,
so after the `Starting` branch runs `tm.reset(); tm.seek_to(start)` the value
`tm.now()` read back is `start`. -/

/-- `State` from `scene/game.rs` lines 110-115. -/
inductive GState where
  | starting
  | beforeMusic
  | playing
  | ending
deriving DecidableEq, Repr

/-- `GameMode` from `scene/game.rs` lines 101-107. -/
inductive GameMode where
  | normal
  | tweakOffset
  | exercise
  | noRetry
  | view
deriving DecidableEq, Repr

/-- Numeric rank of a phase along the `Starting → BeforeMusic → Playing →
Ending` chain. -/
def GState.rank : GState → Nat
  | .starting => 0
  | .beforeMusic => 1
  | .playing => 2
  | .ending => 3

/-- `WAIT_TIME` (`scene/game.rs` line 53). -/
def WAIT_TIME : ℚ := 1/2

/-- `AFTER_TIME` (`scene/game.rs` line 54). -/
def AFTER_TIME : ℚ := 7/10

/-- `GameScene::BEFORE_TIME` (`scene/game.rs` line 183). -/
def BEFORE_TIME : ℚ := 7/10

/-- `GameScene::BEFORE_DURATION` (`scene/game.rs` line 184). -/
def BEFORE_DURATION : ℚ := 6/5

/-- The result payload produced by `Judge::result()` (scene-exit payload of the
spec, §6): score, accuracy, max combo, the four counts, early/late and the
total number of notes. Only its identity matters to the scene claims. -/
structure JudgeResult where
  score : Nat
  accuracy : ℚ
  max_combo : Nat
  counts : Nat × Nat × Nat × Nat
  early : Nat
  late : Nat
  num_of_notes : Nat
deriving DecidableEq, Repr

/-- The scene the `Ending` branch resolves to (`next_scene`, lines 1109-1129):
normal/no-retry/view modes overlay an `EndingScene` carrying `judge.result()`,
tweak-offset pops with a `None` payload, exercise mode stores `None`. -/
inductive NextSceneM where
  | endingScene (result : JudgeResult)
  | popWithNone
deriving DecidableEq, Repr

/-- Inputs of one run of the phase `match` in `GameScene::update`
(lines 1050-1134): current state, `tm.now()`, track length, exercise-range
start, total offset, mode, and the judge result that would be carried. -/
structure PhaseIn where
  state : GState
  time : ℚ
  track_length : ℚ
  exercise_start : ℚ
  offset : ℚ
  mode : GameMode
  alpha : ℚ
  result : JudgeResult
deriving DecidableEq, Repr

/-- Outputs of one run of the phase `match`: the next state, the updated
`res.alpha`, whether the music was seeked-and-played (and to what time),
the resolved `next_scene` if any, and the `time` value the `match` yields
(before `(time - offset).max(0.)` is applied). -/
structure PhaseOut where
  state : GState
  alpha : ℚ
  music_seek_play : Option ℚ
  resolved : Option NextSceneM
  timeVal : ℚ
deriving DecidableEq, Repr

/-- Clamp helper mirroring Rust `f32::clamp(lo, hi)`. -/
def rclamp (x lo hi : ℚ) : ℚ := min (max x lo) hi

/-- The phase `match` of `GameScene::update` (`scene/game.rs` lines 1052-1134),
as a pure step function. The `Starting` branch that fires `tm.reset();
tm.seek_to(exercise_start)` yields `tm.now() = exercise_start` per the
time-manager specification. -/
def updatePhase (i : PhaseIn) : PhaseOut :=
  match i.state with
  | .starting =>
    if i.time ≥ BEFORE_DURATION then
      { state := .beforeMusic, alpha := 1, music_seek_play := none,
        resolved := none, timeVal := i.exercise_start }
    else
      { state := .starting,
        alpha := 1 - (rclamp (1 - i.time / BEFORE_TIME) 0 1)^3,
        music_seek_play := none, resolved := none, timeVal := i.exercise_start }
  | .beforeMusic =>
    if i.time ≥ 0 then
      { state := .playing, alpha := i.alpha, music_seek_play := some i.time,
        resolved := none, timeVal := i.time }
    else
      { state := .beforeMusic, alpha := i.alpha, music_seek_play := none,
        resolved := none, timeVal := i.time }
  | .playing =>
    { state := if i.time > i.track_length + WAIT_TIME then .ending else .playing,
      alpha := i.alpha, music_seek_play := none, resolved := none,
      timeVal := i.time }
  | .ending =>
    let t := i.time - i.track_length - WAIT_TIME
    { state := .ending,
      alpha := 1 - (rclamp (t / AFTER_TIME) 0 1)^2,
      music_seek_play := none,
      resolved :=
        if t ≥ AFTER_TIME + 3/10 then
          match i.mode with
          | .normal | .noRetry | .view => some (.endingScene i.result)
          | .tweakOffset => some .popWithNone
          | .exercise => none
        else none,
      timeVal := i.track_length }

/-- The time stored into `Resource::time` at the end of the phase handling:
`let time = (time - offset).max(0.); self.res.time = time;`
(`scene/game.rs` lines 1135-1136). -/
def storedTime (i : PhaseIn) : ℚ :=
  max ((updatePhase i).timeVal - i.offset) 0

/-! ## Core data model (`core/note.rs`, `core/chart.rs`)

Helper types used by the chart/note code. Types whose definitions are not
under `src/` (`Object`, `CtrlObject`, `BpmList`, `JudgeStatus`,
`ChartFormat`, the resource pack and `Resource` internals) are modelled from
the specification, as noted on each. -/

/-- An RGBA colour (macroquad `Color`), componentwise exact. -/
structure Color where
  r : ℚ
  g : ℚ
  b : ℚ
  a : ℚ
deriving DecidableEq, Repr

/-- A 2-D point (`nalgebra` `Point` as used by `core/note.rs`). -/
structure Point where
  x : ℚ
  y : ℚ
deriving DecidableEq, Repr

/-- A 2-D affine transform standing for the `Matrix` (3×3 homogeneous matrix)
used by the chart code; row-major linear part plus translation. -/
structure Affine where
  m11 : ℚ
  m12 : ℚ
  m21 : ℚ
  m22 : ℚ
  tx : ℚ
  ty : ℚ
deriving DecidableEq, Repr

/-- Identity transform. -/
def Affine.id : Affine := ⟨1, 0, 0, 1, 0, 0⟩

/-- Apply an affine transform to a point. -/
def Affine.apply (m : Affine) (p : Point) : Point :=
  ⟨m.m11 * p.x + m.m12 * p.y + m.tx, m.m21 * p.x + m.m22 * p.y + m.ty⟩

/-- Composition `m * n` (apply `n` first, then `m`), matching matrix product. -/
def Affine.comp (m n : Affine) : Affine :=
  ⟨m.m11 * n.m11 + m.m12 * n.m21, m.m11 * n.m12 + m.m12 * n.m22,
   m.m21 * n.m11 + m.m22 * n.m21, m.m21 * n.m12 + m.m22 * n.m22,
   m.m11 * n.tx + m.m12 * n.ty + m.tx,
   m.m21 * n.tx + m.m22 * n.ty + m.ty⟩

/-- `append_nonuniform_scaling`: scale each axis, applied after `m`. -/
def Affine.appendScaling (m : Affine) (s : Point) : Affine :=
  ⟨s.x * m.m11, s.x * m.m12, s.y * m.m21, s.y * m.m22, s.x * m.tx, s.y * m.ty⟩

/-- `append_translation`: translate after `m`. -/
def Affine.appendTranslation (m : Affine) (t : Point) : Affine :=
  { m with tx := m.tx + t.x, ty := m.ty + t.y }

/-- A texture handle: GL id plus pixel dimensions (macroquad `Texture2D`). -/
structure Texture where
  gl_id : Nat
  width : ℚ
  height : ℚ
deriving DecidableEq, Repr

/-- A source/dest rectangle (macroquad `Rect`). -/
structure Rect where
  x : ℚ
  y : ℚ
  w : ℚ
  h : ℚ
deriving DecidableEq, Repr

/-- Modelled from the spec: `ChartFormat` (`info.rs` is not under `src/`);
the spec lists RPE-style JSON, PGR-style JSON, PEC text and one binary
format. `core/note.rs` pattern-matches the `Rpe`, `Pgr` and `Pec` variants. -/
inductive ChartFormat where
  | rpe
  | pgr
  | pec
  | rpeBin
deriving DecidableEq, Repr

/-- Modelled from the spec (§3): the `judge` field of a note
(`judge.rs` is not under `src/`): `NotJudged`, `PreJudge`, `Judged`, or
`Hold(perfect, next_particle_time, last_finger_id, ok_count)`. -/
inductive JudgeStatus where
  | notJudged
  | preJudge
  | judged
  | hold (perfect : Bool) (at_ : ℚ) (last_finger_id : Int) (ok_count : Nat)
deriving DecidableEq, Repr

/-- Modelled from the spec (§3, §4.2): a keyframe-animated value. The keyframe
evaluator is not under `src/`; it is abstracted as the evaluation function
`f` of the current time, with `set_time`/`now` as in the animation API used
by `core/note.rs`. -/
structure Anim (α : Type) where
  f : ℚ → α
  time : ℚ

/-- `Anim::set_time`. -/
def Anim.set_time (a : Anim α) (t : ℚ) : Anim α := { a with time := t }

/-- `Anim::now`: evaluate at the stored time. -/
def Anim.now (a : Anim α) : α := a.f a.time

/-- `Anim::now_opt`: `None` when the animation is empty. Emptiness is carried
as a flag since the keyframe list itself is abstracted. -/
structure OptAnim (α : Type) where
  anim : Anim α
  empty : Bool

/-- `now_opt` of an optional animation. -/
def OptAnim.now_opt (a : OptAnim α) : Option α :=
  if a.empty then none else some a.anim.now

/-- Modelled from the spec (§3): the animated `Object` of a note or judge
line — translation, rotation, scale, alpha and colour tracks, all evaluated
at the object's current time. `set_time` updates the time of every track;
`now_rotation` (which needs trigonometry) is abstracted as a matrix-valued
track. -/
structure Object where
  translation1 : Anim ℚ
  translation2 : Anim ℚ
  rotationM : Anim Affine
  scale1 : Anim ℚ
  scale2 : Anim ℚ
  scaleEmpty : Bool
  alpha : Anim ℚ
  color : Anim Color

/-- `Object::set_time`. -/
def Object.set_time (o : Object) (t : ℚ) : Object :=
  { o with
    translation1 := o.translation1.set_time t
    translation2 := o.translation2.set_time t
    rotationM := o.rotationM.set_time t
    scale1 := o.scale1.set_time t
    scale2 := o.scale2.set_time t
    alpha := o.alpha.set_time t
    color := o.color.set_time t }

/-- `Object::now_translation` (modelled from the spec: the current translation
point). -/
def Object.now_translation (o : Object) : Point :=
  ⟨o.translation1.now, o.translation2.now⟩

/-- `Object::now_rotation` as the abstracted matrix track. -/
def Object.now_rotation (o : Object) : Affine := o.rotationM.now

/-- `scale.now_with_def(1., 1.)`: the scale point, or `(1,1)` when the scale
track is empty. -/
def Object.scale_now_with_def (o : Object) : Point :=
  if o.scaleEmpty then ⟨1, 1⟩ else ⟨o.scale1.now, o.scale2.now⟩

/-- `Object::now_color`. -/
def Object.now_color (o : Object) : Color := o.color.now

/-- Modelled from the spec (§3 "control objects"): the per-line `CtrlObject`
whose tracks (`alpha`, `size`, `pos`, `y`) are keyed by a note height set
through `set_height`. -/
structure CtrlObject where
  height : ℚ
  alphaF : ℚ → Option ℚ
  sizeF : ℚ → Option ℚ
  posF : ℚ → Option ℚ
  yF : ℚ → Option ℚ

/-- `CtrlObject::set_height`. -/
def CtrlObject.set_height (c : CtrlObject) (h : ℚ) : CtrlObject :=
  { c with height := h }

/-- `ctrl_obj.alpha.now_opt()`. -/
def CtrlObject.alphaNow (c : CtrlObject) : Option ℚ := c.alphaF c.height

/-- `ctrl_obj.size.now_opt()`. -/
def CtrlObject.sizeNow (c : CtrlObject) : Option ℚ := c.sizeF c.height

/-- `ctrl_obj.pos.now_opt()`. -/
def CtrlObject.posNow (c : CtrlObject) : Option ℚ := c.posF c.height

/-- `ctrl_obj.y.now_opt()`. -/
def CtrlObject.yNow (c : CtrlObject) : Option ℚ := c.yF c.height

/-- Modelled from the spec (glossary: "BPM list: a piecewise-constant mapping
from time to beats-per-minute"): `BpmList` (not under `src/`) abstracted by
its three query functions used in `core/note.rs`. -/
structure BpmList where
  now_bpm : ℚ → ℚ
  beat : ℚ → ℚ
  time_beats : ℚ → ℚ

/-- `NoteKind` from `core/note.rs` lines 19-25. -/
inductive NoteKind where
  | click
  | hold (end_time : ℚ) (end_height : ℚ) (end_speed : ℚ)
  | flick
  | drag
deriving DecidableEq, Repr

/-- `NoteKind::order` from `core/note.rs` lines 27-36. -/
def NoteKind.order : NoteKind → Int
  | .hold _ _ _ => 0
  | .drag => 1
  | .click => 2
  | .flick => 3

/-- `Note` from `core/note.rs` lines 38-52 (`hitsound` is carried as its
label string). -/
structure Note where
  object : Object
  kind : NoteKind
  hitsound : String
  time : ℚ
  height : ℚ
  speed : ℚ
  above : Bool
  multiple_hint : Bool
  fake : Bool
  judge : JudgeStatus
  attr : Bool
  format : ChartFormat

/-- Modelled from the spec: `RPE_HEIGHT` (defined in the parser module, not
under `src/`). Its exact value does not enter any claim proved below. -/
def RPE_HEIGHT : ℚ := 900

/-- Modelled from the spec: `HEIGHT_RATIO` (defined in `core/mod.rs`, not
under `src/`). Its exact value does not enter any claim proved below. -/
def HEIGHT_RATIO : ℚ := 83/100

/-- `FADEOUT_TIME` (`core/note.rs` line 16). -/
def FADEOUT_TIME : ℚ := 4/25

/-- `BAD_TIME` (`core/note.rs` line 17). -/
def BAD_TIME : ℚ := 1/2

/-! ## Resource model

`Resource` itself is not under `src/`; the fields and methods used by
`core/note.rs` are modelled from the specification (§3 "Resource"): current
time, fade alpha, aspect ratio, note width, the configuration snapshot
(fields from `config.rs`, which is under `src/`), the resource pack, and the
model-matrix stack behind `with_model` / `world_to_screen`. -/

/-- The slice of `Config` (`config.rs`) consulted by the embedded code. -/
structure ResConfig where
  speed : ℚ
  all_good : Bool
  all_bad : Bool
  chart_debug : Bool
  aggressive : Bool
  double_hint : Bool
  phira_mode : Bool
  chart_ratio : ℚ
deriving DecidableEq, Repr

/-- Modelled from the spec ("res-pack references … hit-effect color", §4.3
hold flags): the resource-pack info consulted by `core/note.rs`. -/
structure ResPackInfo where
  fx_perfect : Color
  fx_good : Color
  hold_repeat : Bool
  hold_keep_head : Bool
  hold_compact : Bool
deriving DecidableEq, Repr

/-- Modelled from the spec: a note style of the resource pack — the four
textures plus the hold sub-rectangles and ratio used by `Note::render`. -/
structure NoteStyle where
  click : Texture
  drag : Texture
  flick : Texture
  hold : Texture
  hold_body : Option Texture
  hold_ratio : ℚ
  hold_head_rect : Rect
  hold_tail_rect : Rect
  hold_body_rect : Rect
deriving DecidableEq, Repr

/-- Modelled from the spec: the resource pack (normal and multi-hint note
styles plus info flags). -/
structure ResPack where
  info : ResPackInfo
  note_style : NoteStyle
  note_style_mh : NoteStyle
deriving DecidableEq, Repr

/-- Modelled from the spec (§3 "Resource"): the per-run resource state as
seen by the embedded functions. `screen` abstracts the camera map applied
after the current model matrix by `world_to_screen`. -/
structure Resource where
  time : ℚ
  alpha : ℚ
  aspect_ratio : ℚ
  note_width : ℚ
  config : ResConfig
  res_pack : ResPack
  model : Affine
  screen : Affine

/-- `Resource::world_to_screen`: camera map composed with the current model
matrix. -/
def Resource.world_to_screen (res : Resource) (p : Point) : Point :=
  (res.screen.comp res.model).apply p

/-- `Resource::with_model`: run with the given matrix pushed onto the model
stack. -/
def Resource.withModel (res : Resource) (m : Affine) : Resource :=
  { res with model := res.model.comp m }

/-- A particle burst recorded by `Resource::emit_at_origin` inside
`Note::update`: the model transform under which it was emitted, the rotation
argument, and the colour. -/
structure Particle where
  transform : Affine
  rotation : ℚ
  color : Color

/-! ## Note update (`core/note.rs` lines 160-213) -/

/-- `Note::init_ctrl_obj` (`core/note.rs` lines 201-203). -/
def Note.init_ctrl_obj (n : Note) (ctrl : CtrlObject) (line_height : ℚ) : CtrlObject :=
  ctrl.set_height
    ((n.height - line_height + n.object.translation2.now / n.speed) * RPE_HEIGHT / 2)

/-- `Note::now_transform` (`core/note.rs` lines 205-213). -/
def Note.now_transform (n : Note) (res : Resource) (ctrl : CtrlObject)
    (base incline_sin : ℚ) : Affine :=
  let incline_val :=
    1 - incline_sin * (base * res.aspect_ratio + n.object.translation2.now)
      * RPE_HEIGHT / 2 / 360
  let tr0 := n.object.now_translation
  let tr : Point := ⟨tr0.x * (incline_val * (ctrl.posNow.getD 1)), tr0.y + base⟩
  let scale0 := n.object.scale_now_with_def
  let scale : Point := ⟨scale0.x * (ctrl.sizeNow.getD 1), scale0.y⟩
  ((n.object.now_rotation).appendScaling scale).appendTranslation tr

/-- `Note::update` (`core/note.rs` lines 160-193) as a pure function. The
sampled `random_rotate()` value is passed in as `rngRot`; the returned triple
is the mutated note, the mutated control object, and the particle emitted via
`res.emit_at_origin`, if any. -/
def Note.update (n : Note) (res : Resource) (parent_rot : ℚ) (parent_tr : Affine)
    (ctrl : CtrlObject) (line_height : ℚ) (bpm : BpmList) (index : Nat)
    (rngRot : ℚ) : Note × CtrlObject × Option Particle :=
  let n1 := { n with object := n.object.set_time res.time }
  match n.judge with
  | .hold perfect at_ fid ok =>
    if res.time ≥ at_ then
      let beat := 30 / bpm.now_bpm
        (if n.format = ChartFormat.pgr then (index : ℚ) else n.time)
      let n2 := { n1 with
        judge := .hold perfect (res.time + beat / res.config.speed) fid ok }
      let color :=
        if perfect && !res.config.all_good && !res.config.all_bad then
          res.res_pack.info.fx_perfect
        else
          res.res_pack.info.fx_good
      let ctrl2 := n2.init_ctrl_obj ctrl line_height
      let rotation :=
        if res.config.chart_debug then (if n2.above then 0 else 180) else rngRot
      let tr := (res.withModel (parent_tr.comp (n2.now_transform res ctrl2 0 0))).model
      (n2, ctrl2, some ⟨tr, parent_rot + rotation, color⟩)
    else
      (n1, ctrl, none)
  | _ => (n1, ctrl, none)

/-! ## Draw pipeline (`core/note.rs` lines 57-148)

The batch buffer owned by `Resource` is modelled functionally: each drawing
helper returns the vertex batch it would push (`none` when culled), and
`Note::render` returns the list of pushed batches in push order. -/

/-- Whether a kind is a Hold (the `matches!(…, NoteKind::Hold { .. })`
tests). -/
def NoteKind.isHold : NoteKind → Bool
  | .hold _ _ _ => true
  | _ => false

/-- A textured vertex as built by `draw_tex_pts` (position, uv, colour). -/
structure Vertex where
  pos : Point
  u : ℚ
  v : ℚ
  color : Color
deriving DecidableEq, Repr

/-- The four corners handed to `draw_tex_pts` (the `[Point; 4]` array). -/
structure Quad4 where
  p0 : Point
  p1 : Point
  p2 : Point
  p3 : Point
deriving DecidableEq, Repr

/-- Map a function over the four corners (`p.map(...)`). -/
def Quad4.map (f : Point → Point) (q : Quad4) : Quad4 :=
  ⟨f q.p0, f q.p1, f q.p2, f q.p3⟩

/-- `p.swap(0, 1)`. -/
def Quad4.swap01 (q : Quad4) : Quad4 := ⟨q.p1, q.p0, q.p2, q.p3⟩

/-- `p.swap(2, 3)`. -/
def Quad4.swap23 (q : Quad4) : Quad4 := ⟨q.p0, q.p1, q.p3, q.p2⟩

/-- `p.swap(0, 3)`. -/
def Quad4.swap03 (q : Quad4) : Quad4 := ⟨q.p3, q.p1, q.p2, q.p0⟩

/-- `p.swap(1, 2)`. -/
def Quad4.swap12 (q : Quad4) : Quad4 := ⟨q.p0, q.p2, q.p1, q.p3⟩

/-- One batch pushed into `res.note_buffer`: the `(kind order, texture id)`
key and the four vertices. -/
structure QuadCmd where
  key : Int × Nat
  v0 : Vertex
  v1 : Vertex
  v2 : Vertex
  v3 : Vertex
deriving DecidableEq, Repr

/-- `DrawTextureParams` as used by `core/note.rs`: destination size (always
set by the callers in this file, so carried as a plain field where Rust
unwraps the option), optional source rectangle, and the flip flags. -/
structure DrawParams where
  dest_size : Point
  source : Option Rect
  flip_x : Bool
  flip_y : Bool
deriving DecidableEq, Repr

/-- `draw_tex_pts` (`core/note.rs` lines 89-119): world-to-screen the corners,
cull against the `±1/chart_ratio` rectangle, apply flips, and build the
vertex batch. Returns `none` exactly when nothing is pushed. -/
def draw_tex_pts (res : Resource) (texture : Texture) (order : Int) (p : Quad4)
    (color : Color) (params : DrawParams) : Option QuadCmd :=
  let q := p.map res.world_to_screen
  let cr := res.config.chart_ratio
  if min (min q.p0.x q.p1.x) (min q.p2.x q.p3.x) > 1 / cr
      ∨ max (max q.p0.x q.p1.x) (max q.p2.x q.p3.x) < -1 / cr
      ∨ min (min q.p0.y q.p1.y) (min q.p2.y q.p3.y) > 1 / cr
      ∨ max (max q.p0.y q.p1.y) (max q.p2.y q.p3.y) < -1 / cr then
    none
  else
    let src := params.source.getD ⟨0, 0, 1, 1⟩
    let q := if params.flip_x then (q.swap01).swap23 else q
    let q := if params.flip_y then (q.swap03).swap12 else q
    some
      { key := (order, texture.gl_id)
        v0 := ⟨q.p0, src.x, src.y, color⟩
        v1 := ⟨q.p1, src.x + src.w, src.y, color⟩
        v2 := ⟨q.p2, src.x + src.w, src.y + src.h, color⟩
        v3 := ⟨q.p3, src.x, src.y + src.h, color⟩ }

/-- `draw_tex` (`core/note.rs` lines 67-88): reject negative heights, build
the rectangle's corners, optionally clip at the judge-line `y = 0`, force
`flip_y`, and defer to `draw_tex_pts`. -/
def draw_tex (res : Resource) (texture : Texture) (order : Int) (x y : ℚ)
    (color : Color) (params : DrawParams) (clip : Bool) : Option QuadCmd :=
  let w := params.dest_size.x
  let h := params.dest_size.y
  if h < 0 then none
  else if clip ∧ y + h ≤ 0 then none
  else
    let p : Quad4 := ⟨⟨x, y⟩, ⟨x + w, y⟩, ⟨x + w, y + h⟩, ⟨x, y + h⟩⟩
    let pp : Quad4 × DrawParams :=
      if clip ∧ y ≤ 0 then
        let r := -y / (y + h)
        let src := params.source.getD ⟨0, 0, 1, 1⟩
        (⟨⟨x, 0⟩, ⟨x + w, 0⟩, p.p2, p.p3⟩,
         { params with source := some { src with y := src.y + src.h * r } })
      else (p, params)
    draw_tex_pts res texture order pp.1 color { pp.2 with flip_y := true }

/-- `draw_center` (`core/note.rs` lines 121-136). -/
def draw_center (res : Resource) (tex : Texture) (order : Int) (scale : ℚ)
    (color : Color) : Option QuadCmd :=
  let hf : Point := ⟨scale, tex.height * scale / tex.width⟩
  draw_tex res tex order (-hf.x) (-hf.y) color
    { dest_size := ⟨hf.x * 2, hf.y * 2⟩, source := none,
      flip_x := false, flip_y := false } false

/-- `ChartSettings` (`core/chart.rs` lines 16-20). The Rust field
`hold_partial_cover` is spelled `holdPartialCover` here. -/
structure ChartSettings where
  pe_alpha_extension : Bool
  holdPartialCover : Bool
deriving DecidableEq, Repr

/-- `RenderConfig` (`core/note.rs` lines 57-65), with the control object
passed separately. The `appear_before` / `invisible_time` fields model the
Rust `f32` whose `is_finite()` is tested: `none` stands for `INFINITY`. -/
structure RenderConfig where
  settings : ChartSettings
  line_height : ℚ
  appear_before : Option ℚ
  invisible_time : Option ℚ
  draw_below : Bool
  incline_sin : ℚ

/-- `matches!(judge, JudgeStatus::Judged)`. -/
def JudgeStatus.isJudged : JudgeStatus → Bool
  | .judged => true
  | _ => false

/-- The fade/cover cull condition of `Note::render` (`core/note.rs` lines
263-283): draw-below off, and either the note is a non-hold past
`time + FADEOUT_TIME`, or it is upcoming with `cover_base ≤ -0.001`.
`ctrl` is the control object already set to the note's height. -/
def noteFadeCull (n : Note) (res : Resource) (config : RenderConfig)
    (ctrl : CtrlObject) : Bool :=
  let spd := n.speed * (ctrl.yNow.getD 1)
  let line_height := config.line_height / res.aspect_ratio * spd
  let height := n.height / res.aspect_ratio * spd
  let cover_base :=
    if res.config.phira_mode || !decide (n.format = ChartFormat.rpe) then
      height - line_height
    else
      match n.kind with
      | .hold _ end_height end_speed =>
        let end_spd := end_speed * (ctrl.yNow.getD 1)
        end_height / res.aspect_ratio * end_spd - line_height
      | _ => height - line_height
  !config.draw_below
    && ((decide (res.time - FADEOUT_TIME ≥ n.time) && !n.kind.isHold)
      || (decide (n.time > res.time) && decide (cover_base ≤ -(1/1000))))

/-- The colour handed to the note's draw call (`core/note.rs` lines
284-290): object colour with alpha scaled by the resource and control
alphas, dimmed by 0.2 if the fade/cover cull fired (chart-debug mode), and
by 0.4 if the line is debug-dimmed. -/
def noteColor3 (n : Note) (res : Resource) (config : RenderConfig)
    (ctrl : CtrlObject) (line_set_debug_alpha : Bool) : Color :=
  let color0 := n.object.now_color
  let color1 := { color0 with a := color0.a * (res.alpha * (ctrl.alphaNow.getD 1)) }
  let color2 :=
    if noteFadeCull n res config ctrl then { color1 with a := color1.a * (1/5) }
    else color1
  if line_set_debug_alpha then { color2 with a := color2.a * (2/5) } else color2

/-- The `draw` closure of `Note::render` (`core/note.rs` lines 291-299):
apply the fade-out factor (unless draw-below) and draw the centred quad
under the note's transform. -/
def noteRenderDraw (n : Note) (res : Resource) (config : RenderConfig)
    (ctrl : CtrlObject) (color3 : Color) (scale : ℚ) (order : Int)
    (base : ℚ) (tex : Texture) : List QuadCmd :=
  let c :=
    if !config.draw_below then
      { color3 with a := color3.a * (min (n.time - res.time) 0 / FADEOUT_TIME + 1) }
    else color3
  (draw_center (res.withModel (n.now_transform res ctrl base config.incline_sin))
    tex order scale c).toList

/-- The Hold arm of `Note::render` (`core/note.rs` lines 305-421): body, head
and tail of the hold, with partial-cover clipping. -/
def noteRenderHold (n : Note) (res : Resource) (config : RenderConfig)
    (ctrl : CtrlObject) (color3 : Color) (scale : ℚ) (order : Int)
    (spd line_height height : ℚ)
    (end_time end_height end_speed : ℚ) : List QuadCmd :=
  let res1 := res.withModel (n.now_transform res ctrl 0 0)
  let color4 :=
    if n.judge.isJudged then { color3 with a := color3.a * (1/2) } else color3
  if decide (res1.time ≥ end_time) then []
  else
    let end_spd := end_speed * (ctrl.yNow.getD 1)
    if decide (n.format = ChartFormat.pgr) && decide (end_spd = 0)
        && !res1.config.chart_debug then []
    else
      let color5 :=
        if decide (n.format = ChartFormat.pgr) && decide (end_spd = 0) then
          { color4 with a := color4.a * (1/5) }
        else color4
      let end_height2 := end_height / res1.aspect_ratio * spd
      let time := if decide (res1.time ≥ n.time) then res1.time else n.time
      let clip := !config.draw_below && config.settings.holdPartialCover
      let h := if decide (n.time ≤ res1.time) then line_height else height
      let bottom := h - line_height
      let top :=
        if decide (n.format = ChartFormat.pgr) then
          let hold_height := end_height2 - height
          let hold_line_height :=
            (time - n.time) * end_spd / res1.aspect_ratio / HEIGHT_RATIO
          bottom + hold_height - hold_line_height
        else end_height2 - line_height
      if decide (res1.time < n.time) && decide (bottom < -(1/1000000))
          && (!config.settings.holdPartialCover
            && !decide (n.format = ChartFormat.pgr)) then []
      else
        let style2 :=
          if res1.config.double_hint && n.multiple_hint then
            res1.res_pack.note_style_mh
          else res1.res_pack.note_style
        let tex := style2.hold
        let ratio := style2.hold_ratio
        let bodyTex :=
          if res1.res_pack.info.hold_repeat then style2.hold_body.getD tex
          else tex
        let body := draw_tex res1 bodyTex order (-scale) bottom color5
          { dest_size := ⟨scale * 2, top - bottom⟩
            source := some (if res1.res_pack.info.hold_repeat then
                let hb := style2.hold_body.getD tex
                ⟨0, 0, 1, (top - bottom) / scale / 2 * hb.width / hb.height⟩
              else style2.hold_body_rect)
            flip_x := false, flip_y := false } clip
        let head :=
          if decide (res1.time < n.time) || res1.res_pack.info.hold_keep_head then
            let r := style2.hold_head_rect
            let hfy := r.h / r.w * scale * ratio
            draw_tex res1 tex order (-scale)
              (bottom - (if res1.res_pack.info.hold_compact then hfy else hfy * 2))
              color5
              { dest_size := ⟨scale * 2, hfy * 2⟩, source := some r,
                flip_x := false, flip_y := false } clip
          else none
        let tail :=
          let r := style2.hold_tail_rect
          let hfy := r.h / r.w * scale * ratio
          draw_tex res1 tex order (-scale)
            (top - (if res1.res_pack.info.hold_compact then hfy else 0)) color5
            { dest_size := ⟨scale * 2, hfy * 2⟩, source := some r,
              flip_x := false, flip_y := false } clip
        body.toList ++ head.toList ++ tail.toList

/-- `Note::render` (`core/note.rs` lines 215-431) as a pure function: returns
the batches pushed into the note buffer, in push order. The mutation of the
shared control object (`init_ctrl_obj`) is reflected by the local `ctrl`;
colour-state mutations are threaded through numbered `let` bindings; the
`hold_body.unwrap()` used when `hold_repeat` is set is modelled by
defaulting to the hold texture. -/
def Note.render (n : Note) (res : Resource) (config : RenderConfig)
    (ctrl0 : CtrlObject) (bpm : BpmList) (line_set_debug_alpha : Bool) :
    List QuadCmd :=
  if n.judge.isJudged && !n.kind.isHold then []
  else if (match config.appear_before with
    | some ab => decide (bpm.time_beats (bpm.beat n.time - ab) > res.time)
    | none => false) then []
  else if (match config.invisible_time with
    | some it => decide (n.time - it < res.time)
    | none => false) then []
  else
    let ctrl := n.init_ctrl_obj ctrl0 config.line_height
    let spd := n.speed * (ctrl.yNow.getD 1)
    let line_height := config.line_height / res.aspect_ratio * spd
    let height := n.height / res.aspect_ratio * spd
    let base := height - line_height
    if res.config.aggressive && decide (n.format = ChartFormat.pec) && n.kind.isHold
        && (let h := if decide (n.time ≤ res.time) then line_height else height
            decide ((h - line_height) - line_height > 2 / res.config.chart_ratio)) then
      []
    else
      if noteFadeCull n res config ctrl && !res.config.chart_debug then []
      else
        let color3 := noteColor3 n res config ctrl line_set_debug_alpha
        let scale :=
          (if n.multiple_hint then
            res.res_pack.note_style_mh.click.width / res.res_pack.note_style.click.width
          else 1) * res.note_width
        let order := n.kind.order
        let style :=
          if res.config.double_hint && n.multiple_hint then res.res_pack.note_style_mh
          else res.res_pack.note_style
        match n.kind with
        | .click =>
          if n.fake && decide (res.time ≥ n.time) then []
          else noteRenderDraw n res config ctrl color3 scale order base style.click
        | .flick =>
          if n.fake && decide (res.time ≥ n.time) then []
          else noteRenderDraw n res config ctrl color3 scale order base style.flick
        | .drag =>
          if n.fake && decide (res.time ≥ n.time) then []
          else noteRenderDraw n res config ctrl color3 scale order base style.drag
        | .hold end_time end_height end_speed =>
          if n.fake && decide (res.time ≥ end_time) then []
          else
            noteRenderHold n res config ctrl color3 scale order spd line_height
              height end_time end_height end_speed

/-- The alpha accumulated by `Note::render` before the fade-out factor is
applied (the value of `color.a` entering the `draw` closure, `core/note.rs`
lines 263-294): the object colour's alpha times `res.alpha` and the control
alpha, times 0.2 when the fade/cover cull fired in chart-debug mode, times
0.4 when the line is debug-dimmed. Mirrors the corresponding prefix of
`Note.render`. -/
def preFadeAlpha (n : Note) (res : Resource) (config : RenderConfig)
    (ctrl0 : CtrlObject) (line_set_debug_alpha : Bool) : ℚ :=
  let ctrl := n.init_ctrl_obj ctrl0 config.line_height
  let a1 := (n.object.now_color).a * (res.alpha * (ctrl.alphaNow.getD 1))
  let a2 := if noteFadeCull n res config ctrl then a1 * (1/5) else a1
  if line_set_debug_alpha then a2 * (2/5) else a2

/-! ## Effects (`src/phire/src/core/effect.rs`)

An effect's uniforms (`Box<dyn Uniform>`) are either a constant `(String, T)`
pair or an animated `(String, Anim<T>)` pair; the keyframe evaluator is
abstracted as a value function of the stored time, exactly as for `Object`
above. GPU calls are modelled by returning the record of work `render`
would perform (`none` when it returns early). -/

/-- `miniquad::UniformType` as used here (`Float1` / `Float2` / `Float4`). -/
inductive UniformType where
  | float1
  | float2
  | float4
deriving DecidableEq, Repr

/-- A uniform value: `f32`, `Vec2` or `Color` (the three `UniformValue`
implementations, lines 61-71). -/
inductive UniformVal where
  | float (v : ℚ)
  | vec2 (x y : ℚ)
  | vec4 (r g b a : ℚ)
deriving DecidableEq, Repr

/-- `UNIFORM_TYPE` of each value shape. -/
def UniformVal.utype : UniformVal → UniformType
  | .float _ => .float1
  | .vec2 _ _ => .float2
  | .vec4 _ _ _ _ => .float4

/-- A `Box<dyn Uniform>`: a constant `(String, T)` or an animated
`(String, Anim<T>)` (lines 79-103). -/
inductive EUniform where
  | const (name : String) (v : UniformVal)
  | anim (name : String) (ty : UniformType) (f : ℚ → UniformVal) (time : ℚ)

/-- `Uniform::uniform_pair`. -/
def EUniform.uniform_pair : EUniform → String × UniformType
  | .const n v => (n, v.utype)
  | .anim n ty _ _ => (n, ty)

/-- `Uniform::set_time`: a no-op on constants, stores the time on animated
uniforms (lines 84, 96-98). -/
def EUniform.set_time (u : EUniform) (t : ℚ) : EUniform :=
  match u with
  | .const n v => .const n v
  | .anim n ty f _ => .anim n ty f t

/-- `Uniform::apply`: the `(name, value)` pair passed to
`material.set_uniform` (lines 86-88, 100-102). -/
def EUniform.applyVal : EUniform → String × UniformVal
  | .const n v => (n, v)
  | .anim n _ f t => (n, f t)

/-- `Range::<f32>::contains`: `start ≤ t ∧ t < end`. -/
def rangeContains (r : ℚ × ℚ) (t : ℚ) : Bool :=
  decide (r.1 ≤ t) && decide (t < r.2)

/-- `contains` on the stored `t`, whose initial value `f32::NEG_INFINITY`
(line 166) is modelled by `none` and is in no range. -/
def rangeContainsOpt (r : ℚ × ℚ) : Option ℚ → Bool
  | none => false
  | some t => rangeContains r t

/-- `Effect` (lines 105-112): time range, last-update time, the uniform list
the material was created with, parsed defaults, chart uniforms, global flag.
-/
structure Effect where
  time_range : ℚ × ℚ
  t : Option ℚ
  materialUniforms : List (String × UniformType)
  defaults : List EUniform
  uniforms : List EUniform
  global : Bool

/-- `Effect::update` (lines 182-190): record `res.time`, and advance animated
uniforms only when it lies inside the time range. -/
def Effect.update (e : Effect) (res : Resource) : Effect :=
  let t := res.time
  let e := { e with t := some t }
  if rangeContains e.time_range t then
    { e with uniforms := e.uniforms.map (fun u => u.set_time t) }
  else e

/-- The work `Effect::render` performs when it does not return early
(lines 196-221): the uniforms applied, the `time` uniform and the global
flag. -/
structure EffectDraw where
  defaultsApplied : List (String × UniformVal)
  uniformsApplied : List (String × UniformVal)
  timeUniform : ℚ
  global : Bool

/-- `Effect::render` (lines 192-221): returns early — before any GPU work —
whenever the recorded `self.t` is outside `time_range`. -/
def Effect.render (e : Effect) : Option EffectDraw :=
  if !rangeContainsOpt e.time_range e.t then none
  else
    some
      { defaultsApplied := e.defaults.map EUniform.applyVal
        uniformsApplied := e.uniforms.map EUniform.applyVal
        timeUniform := (e.t.getD 0)
        global := e.global }

/-! ## Effect construction (`Effect::new`, lines 123-180)

`DEF_REGEX` captures `uniform TYPE name; // %value%` triples via the external
`regex` crate; the captures are passed to the model as a list. Rust's
`str::parse::<f32>` (also external) is modelled by `parseNum` on plain signed
decimals. -/

/-- One `DEF_REGEX` capture: the declared type, uniform name, and the text
between the `%` signs. -/
structure Capture where
  type_name : String
  name : String
  value : String
deriving DecidableEq, Repr

/-- Numeric value of a digit list. -/
def digitsVal (cs : List Char) : ℕ :=
  cs.foldl (fun a c => a * 10 + (c.toNat - 48)) 0

/-- Model of `str::parse::<f32>` on plain signed decimals
`[+-]?digits[.digits]?`; exotic forms (exponents, infinities) are outside the
model. -/
def parseNum (s : String) : Option ℚ :=
  let cs := s.toList
  let sign : ℚ × List Char :=
    match cs with
    | '-' :: rest => (-1, rest)
    | '+' :: rest => (1, rest)
    | _ => (1, cs)
  let intPart := sign.2.takeWhile Char.isDigit
  let rest := sign.2.dropWhile Char.isDigit
  if intPart.isEmpty then none
  else
    match rest with
    | [] => some (sign.1 * (digitsVal intPart : ℚ))
    | '.' :: frac =>
      if frac.isEmpty || !frac.all Char.isDigit then none
      else some (sign.1 * ((digitsVal intPart : ℚ)
        + (digitsVal frac : ℚ) / (10 : ℚ) ^ frac.length))
    | _ => none

/-- Rust `str::split_once(',')`. -/
def splitOnceComma (s : String) : Option (String × String) :=
  match s.splitOn "," with
  | [] => none
  | [_] => none
  | a :: rest => some (a, String.intercalate "," rest)

/-- The body of the `captures_iter` closure (lines 127-146): parse one
declaration into a constant uniform, or produce the construction-time error.
-/
def parseDefault (c : Capture) : Except String EUniform :=
  match c.type_name with
  | "float" =>
    match parseNum c.value with
    | some v => .ok (.const c.name (.float v))
    | none => .error "invalid float"
  | "vec2" =>
    match splitOnceComma c.value with
    | none => .error "Expected x,y"
    | some (x, y) =>
      match parseNum x.trim, parseNum y.trim with
      | some xv, some yv => .ok (.const c.name (.vec2 xv yv))
      | _, _ => .error "invalid float"
  | "vec4" =>
    let values := (c.value.splitOn ",").map String.trim
    if values.length ≠ 4 then .error "Expected r,g,b,a"
    else
      match values.map parseNum with
      | [some r, some g, some b, some a] => .ok (.const c.name (.vec4 r g b a))
      | _ => .error "invalid float"
  | t => .error ("Unknown type: " ++ t)

/-- Claim-side well-formedness of one declaration, following the words of the
specification: the declared TYPE is one of `float` / `vec2` / `vec4`, and the
default value has the right component count (`x,y` for vec2, `r,g,b,a` for
vec4), every component being a parsable number. Compared below against the
code's `parseDefault`. -/
def captureWF (c : Capture) : Bool :=
  if c.type_name = "float" then (parseNum c.value).isSome
  else if c.type_name = "vec2" then
    match splitOnceComma c.value with
    | some (x, y) => (parseNum x.trim).isSome && (parseNum y.trim).isSome
    | none => false
  else if c.type_name = "vec4" then
    let values := (c.value.splitOn ",").map String.trim
    decide (values.length = 4) && values.all fun s => (parseNum s).isSome
  else false

/-- The `add_uniform` deduplication by name (lines 148-163). -/
def dedupByName (l : List (String × UniformType)) : List (String × UniformType) :=
  (l.foldl
    (fun (acc : List String × List (String × UniformType)) p =>
      if p.1 ∈ acc.1 then acc else (p.1 :: acc.1, acc.2 ++ [p]))
    ([], [])).2

/-- `Effect::new` (lines 123-180): parse every capture (any malformed one
aborts construction with its error), then register defaults, the automatic
`time` / `screenSize` / `UVScale` uniforms, and the chart uniforms, deduped
by name. `t` starts at `NEG_INFINITY` (`none`). -/
def Effect.new (time_range : ℚ × ℚ) (captures : List Capture)
    (uniforms : List EUniform) (global : Bool) : Except String Effect := do
  let defaults ← captures.mapM parseDefault
  let pairs := defaults.map EUniform.uniform_pair
    ++ [("time", UniformType.float1), ("screenSize", UniformType.float2),
        ("UVScale", UniformType.float2)]
    ++ uniforms.map EUniform.uniform_pair
  .ok
    { time_range := time_range
      t := none
      materialUniforms := dedupByName pairs
      defaults := defaults
      uniforms := uniforms
      global := global }

/-! ## Chart (`src/prpr/src/core/chart.rs`) -/

/-- Modelled from the spec: `JudgeLineCache` (not under `src/`). Its contents
are opaque to the claims below; `reset` recomputes it from the line's notes —
the Rust `cache.reset(&mut line.notes)` rebuilds its internal index order and
leaves the notes themselves unchanged. -/
structure JudgeLineCache where
  update_order : List Nat
deriving DecidableEq, Repr

/-- Modelled from the spec: `JudgeLineCache::reset`, a recomputation from the
notes. -/
def JudgeLineCache.reset (notes : List Note) : JudgeLineCache :=
  ⟨List.range notes.length⟩

/-- Modelled from the spec (§4.2): a chart video; `next_frame` is the decode
cursor that `Chart::reset` zeroes, `content` abstracts every other field. -/
structure Video where
  next_frame : Nat
  content : String
deriving DecidableEq, Repr

/-- `ChartExtra` (`core/chart.rs` lines 9-14). -/
structure ChartExtra where
  effects : List Effect
  global_effects : List Effect
  videos : List Video

/-- `JudgeLine` (not under `src/`): the fields consulted by `core/chart.rs` —
the attachment slot (`attach_ui` stores `element as usize - 1` as `Fin 7`),
z-index, notes and cache. -/
structure JudgeLine where
  object : Object
  notes : List Note
  z_index : Int
  attach_ui : Option (Fin 7)
  cache : JudgeLineCache

/-- `Chart` (`core/chart.rs` lines 24-34); the hitsound map is carried as an
association list of clip ids. -/
structure Chart where
  offset : ℚ
  lines : List JudgeLine
  bpm_list : BpmList
  settings : ChartSettings
  extra : ChartExtra
  order : List Nat
  attach_ui : List (Option Nat)
  hitsounds : List (String × Nat)

/-- The `attach_ui` of line `i`, `none` out of bounds. -/
def lineAttach (lines : List JudgeLine) (i : Nat) : Option (Fin 7) :=
  match lines.get? i with
  | some l => l.attach_ui
  | none => none

/-- The `z_index` of line `i`, `0` out of bounds. -/
def lineZ (lines : List JudgeLine) (i : Nat) : Int :=
  ((lines.get? i).map (fun l => l.z_index)).getD 0

/-- One step of the `attach_ui` filling: line `i` writes its index at slot
`element as usize - 1` when attached (`core/chart.rs` lines 41-43). -/
def attachStep (lines : List JudgeLine) (acc : List (Option Nat)) (i : Nat) :
    List (Option Nat) :=
  match lineAttach lines i with
  | some e => acc.set e.val (some i)
  | none => acc

/-- The `attach_ui` table built by the filter in `Chart::new` (lines 38-48):
each attached line is written at `element as usize - 1`, later lines
overwriting earlier ones. -/
def chartNewAttach (lines : List JudgeLine) : List (Option Nat) :=
  (List.range lines.length).foldl (attachStep lines) (List.replicate 7 none)

/-- The comparison of `order.sort_by_key(|it| (lines[*it].z_index, *it))`
(line 49): lexicographic on the pair. -/
def chartOrderKeyLe (lines : List JudgeLine) (a b : Nat) : Bool :=
  decide (lineZ lines a < lineZ lines b)
    || (decide (lineZ lines a = lineZ lines b) && decide (a ≤ b))

/-- The render order built by `Chart::new` (lines 39-49): the indices of
lines with no UI attachment, sorted by `(z_index, index)`. -/
def chartNewOrder (lines : List JudgeLine) : List Nat :=
  ((List.range lines.length).filter (fun i => (lineAttach lines i).isNone)).mergeSort
    (chartOrderKeyLe lines)

/-- `Chart::new` (`core/chart.rs` lines 37-61). -/
def Chart.new (offset : ℚ) (lines : List JudgeLine) (bpm_list : BpmList)
    (settings : ChartSettings) (extra : ChartExtra)
    (hitsounds : List (String × Nat)) : Chart :=
  { offset := offset
    lines := lines
    bpm_list := bpm_list
    settings := settings
    extra := extra
    order := chartNewOrder lines
    attach_ui := chartNewAttach lines
    hitsounds := hitsounds }

/-- The per-note reset of `Chart::reset` (lines 104-110): judge back to
`NotJudged`, `attr` cleared. -/
def Note.resetJudge (n : Note) : Note :=
  { n with judge := JudgeStatus.notJudged, attr := false }

/-- `Chart::reset` (`core/chart.rs` lines 103-117): reset every note of every
line, then rebuild each line's cache from its (already reset) notes, then
zero every video's `next_frame`. -/
def Chart.reset (c : Chart) : Chart :=
  let lines := c.lines.map (fun l => { l with notes := l.notes.map Note.resetJudge })
  let lines := lines.map (fun l => { l with cache := JudgeLineCache.reset l.notes })
  { c with
    lines := lines
    extra := { c.extra with
      videos := c.extra.videos.map (fun v => { v with next_frame := 0 }) } }

/-! ## Concrete sample values used by witnesses and counterexamples -/

/-- A constant animation track. -/
def constAnim (v : α) : Anim α := ⟨fun _ => v, 0⟩

/-- An object whose tracks are all constant and whose rotation is the
identity. -/
def object0 : Object :=
  { translation1 := constAnim 0
    translation2 := constAnim 0
    rotationM := constAnim Affine.id
    scale1 := constAnim 1
    scale2 := constAnim 1
    scaleEmpty := true
    alpha := constAnim 1
    color := constAnim ⟨1, 1, 1, 1⟩ }

/-- A control object with empty tracks (every `now_opt` is `None`). -/
def ctrlNone : CtrlObject :=
  ⟨0, fun _ => none, fun _ => none, fun _ => none, fun _ => none⟩

/-- A constant-120-BPM list with identity beat conversions. -/
def bpm120 : BpmList := ⟨fun _ => 120, fun t => t, fun t => t⟩

/-- A unit texture with the given id. -/
def texUnit (id : Nat) : Texture := ⟨id, 1, 1⟩

/-- A note style over unit textures. -/
def style0 : NoteStyle :=
  { click := texUnit 1, drag := texUnit 2, flick := texUnit 3, hold := texUnit 4
    hold_body := none, hold_ratio := 1
    hold_head_rect := ⟨0, 0, 1, 1⟩, hold_tail_rect := ⟨0, 0, 1, 1⟩
    hold_body_rect := ⟨0, 0, 1, 1⟩ }

/-- A resource pack over `style0`. -/
def pack0 : ResPack :=
  { info := { fx_perfect := ⟨1, 1, 0, 1⟩, fx_good := ⟨0, 1, 1, 1⟩
              hold_repeat := false, hold_keep_head := false, hold_compact := false }
    note_style := style0
    note_style_mh := style0 }

/-- A default configuration snapshot. -/
def cfg0 : ResConfig :=
  { speed := 1, all_good := false, all_bad := false, chart_debug := false
    aggressive := false, double_hint := false, phira_mode := false, chart_ratio := 1 }

/-- A sample resource at time 1 with identity camera. -/
def res0 : Resource :=
  { time := 1, alpha := 1, aspect_ratio := 1, note_width := 1/10
    config := cfg0, res_pack := pack0, model := Affine.id, screen := Affine.id }

/-- A zero judge result. -/
def jres0 : JudgeResult := ⟨0, 0, 0, (0, 0, 0, 0), 0, 0, 0⟩

/-- A judge line attached to UI slot 0 (element 1). -/
def lineSlot0 : JudgeLine :=
  { object := object0, notes := [], z_index := 0, attach_ui := some 0, cache := ⟨[]⟩ }

/-- An unattached judge line with the given z-index. -/
def lineFree (z : Int) : JudgeLine :=
  { object := object0, notes := [], z_index := z, attach_ui := none, cache := ⟨[]⟩ }

/-- Default chart settings. -/
def settings0 : ChartSettings := ⟨false, false⟩

/-- A default render config (no appear-before/invisible windows, no
draw-below, no incline). -/
def rcfg0 : RenderConfig := ⟨⟨false, false⟩, 0, none, none, false, 0⟩

/-- The render config with the draw-below option enabled. -/
def rcfgBelow : RenderConfig := ⟨⟨false, false⟩, 0, none, none, true, 0⟩

/-- A quad whose four corners all lie outside the unit cull rectangle while
its bounding box covers it. -/
def cexQuad : Quad4 := ⟨⟨-2, -2⟩, ⟨2, -2⟩, ⟨2, 2⟩, ⟨-2, 2⟩⟩

/-- Draw parameters with a unit destination size. -/
def cexParams : DrawParams := ⟨⟨1, 1⟩, none, false, false⟩


/-- A hold note whose judge state is `Hold(perfect, next_particle_time = 1/2,
finger 0, 0 ok-frames)`. -/
def note4 : Note :=
  { object := object0, kind := NoteKind.hold 2 2 1, hitsound := "", time := 0
    height := 0, speed := 1, above := true, multiple_hint := false, fake := false
    judge := JudgeStatus.hold true (1/2) 0 0, attr := false
    format := ChartFormat.rpe }

/-- An unjudged click note scheduled at time 0. -/
def noteC6 : Note :=
  { note4 with kind := NoteKind.click, judge := JudgeStatus.notJudged }

/-- Empty chart extras. -/
def extra0 : ChartExtra := ⟨[], [], []⟩

/-! ## Claim theorems -/

/-- `attachStep` preserves the table length. -/
theorem attachStep_length (lines : List JudgeLine) (acc : List (Option Nat)) (i : Nat) :
    (attachStep lines acc i).length = acc.length := by
  unfold attachStep
  cases lineAttach lines i <;> simp

/-- Pointwise view of the `attach_ui` fold: the entry at slot `e` evolves by
the scalar fold that overwrites on every index attached to `e`. -/
theorem foldl_attachStep_get (lines : List JudgeLine) (e : Fin 7) :
    ∀ (l : List Nat) (acc : List (Option Nat)), e.val < acc.length →
      (l.foldl (attachStep lines) acc)[e.val]? =
        l.foldl
          (fun a i => if lineAttach lines i = some e then some (some i) else a)
          acc[e.val]? := by
  intro l
  induction l with
  | nil => intro acc _; rfl
  | cons j l ih =>
    intro acc h
    simp only [List.foldl_cons]
    rw [ih _ (by rw [attachStep_length]; exact h)]
    congr 1
    unfold attachStep
    cases hj : lineAttach lines j with
    | none => simp [hj]
    | some e' =>
      by_cases he : e' = e
      · subst he
        simp [List.getElem?_set_self h]
      · have hv : e'.val ≠ e.val := by
          simpa [Fin.ext_iff] using he
        simp [List.getElem?_set_ne hv, he]

/-- The scalar slot fold is constant over indices not attached to `e`. -/
theorem foldl_slot_const (lines : List JudgeLine) (e : Fin 7) :
    ∀ (l : List Nat) (a : Option (Option Nat)),
      (∀ i ∈ l, lineAttach lines i ≠ some e) →
      l.foldl (fun a i => if lineAttach lines i = some e then some (some i) else a) a
        = a := by
  intro l
  induction l with
  | nil => intro a _; rfl
  | cons j l ih =>
    intro a hl
    simp only [List.foldl_cons]
    rw [if_neg (hl j (List.mem_cons_self j l))]
    exact ih a fun i hi => hl i (List.mem_cons_of_mem j hi)

/-- Soundness of the scalar slot fold: a recorded index either was recorded
already or belongs to the processed list and is attached to `e`. -/
theorem foldl_slot_sound (lines : List JudgeLine) (e : Fin 7) :
    ∀ (l : List Nat) (a : Option (Option Nat)) (i : Nat),
      l.foldl (fun a i => if lineAttach lines i = some e then some (some i) else a) a
          = some (some i) →
      a = some (some i) ∨ (i ∈ l ∧ lineAttach lines i = some e) := by
  intro l
  induction l with
  | nil => intro a i h; exact Or.inl h
  | cons j l ih =>
    intro a i h
    simp only [List.foldl_cons] at h
    rcases ih _ i h with hbase | hmem
    · by_cases hj : lineAttach lines j = some e
      · rw [if_pos hj] at hbase
        obtain rfl : j = i := by simpa using hbase
        exact Or.inr ⟨List.mem_cons_self j l, hj⟩
      · rw [if_neg hj] at hbase
        exact Or.inl hbase
    · exact Or.inr ⟨List.mem_cons_of_mem j hmem.1, hmem.2⟩

/-- Last-wins for the scalar slot fold over `range len`. -/
theorem foldl_slot_last (lines : List JudgeLine) (e : Fin 7) (len i : Nat)
    (hi : i < len) (hm : lineAttach lines i = some e)
    (hlast : ∀ j, i < j → j < len → lineAttach lines j ≠ some e)
    (a : Option (Option Nat)) :
    (List.range len).foldl
        (fun a i => if lineAttach lines i = some e then some (some i) else a) a
      = some (some i) := by
  have hsplit : len = (i + 1) + (len - (i + 1)) := by omega
  rw [hsplit, List.range_add, List.foldl_append]
  rw [foldl_slot_const lines e _ _ ?_]
  · rw [List.range_succ, List.foldl_append]
    simp [hm]
  · intro j hj
    simp only [List.mem_map, List.mem_range] at hj
    obtain ⟨x, hx, rfl⟩ := hj
    exact hlast _ (by omega) (by omega)

/-- The sort key comparison is transitive. -/
theorem chartOrderKeyLe_trans (lines : List JudgeLine) (a b c : Nat)
    (hab : chartOrderKeyLe lines a b = true) (hbc : chartOrderKeyLe lines b c = true) :
    chartOrderKeyLe lines a c = true := by
  simp only [chartOrderKeyLe, Bool.or_eq_true, Bool.and_eq_true, decide_eq_true_eq]
    at hab hbc ⊢
  omega

/-- The sort key comparison is total. -/
theorem chartOrderKeyLe_total (lines : List JudgeLine) (a b : Nat) :
    (chartOrderKeyLe lines a b || chartOrderKeyLe lines b a) = true := by
  simp only [chartOrderKeyLe, Bool.or_eq_true, Bool.and_eq_true, decide_eq_true_eq]
  omega

/-- Counterexample to claim C3 as stated: when two lines attach to the same
UI slot, the earlier line is excluded from the render order but is NOT
recorded in the `attach_ui` table — the later line overwrites it. With two
copies of a line attached to slot 0, line 0 has `attach_ui = Some(slot 0)`
yet the table records line 1 at that slot. -/
theorem c3_render_order_cex :
    lineAttach [lineSlot0, lineSlot0] 0 = some 0 ∧
    (Chart.new 0 [lineSlot0, lineSlot0] bpm120 settings0 extra0 []).attach_ui[0]?
      ≠ some (some 0) ∧
    (Chart.new 0 [lineSlot0, lineSlot0] bpm120 settings0 extra0 []).attach_ui[0]?
      = some (some 1) := by
  exact ⟨rfl, by decide, rfl⟩

/-- Amended claim C3: `Chart::new` builds the render order to contain exactly
the indices of lines with no UI attachment, sorted by the pair
`(z_index, index)` (hence without duplicates); every attached line is
excluded from the order, and the length-7 `attach_ui` table records, at each
slot, the LAST line index attached to it (earlier lines attached to the same
slot are overwritten). -/
theorem c3_render_order_amended (o : ℚ) (lines : List JudgeLine) (bpm : BpmList)
    (st : ChartSettings) (ex : ChartExtra) (hs : List (String × Nat)) :
    (∀ i, i ∈ (Chart.new o lines bpm st ex hs).order ↔
      i < lines.length ∧ lineAttach lines i = none) ∧
    ((Chart.new o lines bpm st ex hs).order.Pairwise fun a b =>
      lineZ lines a < lineZ lines b ∨ (lineZ lines a = lineZ lines b ∧ a ≤ b)) ∧
    (Chart.new o lines bpm st ex hs).order.Nodup ∧
    (∀ (e : Fin 7) (i : Nat),
      (Chart.new o lines bpm st ex hs).attach_ui[e.val]? = some (some i) →
      i < lines.length ∧ lineAttach lines i = some e) ∧
    (∀ (e : Fin 7) (i : Nat), i < lines.length → lineAttach lines i = some e →
      (∀ j, i < j → j < lines.length → lineAttach lines j ≠ some e) →
      (Chart.new o lines bpm st ex hs).attach_ui[e.val]? = some (some i)) := by
  have hlen : ∀ e : Fin 7, e.val < (List.replicate (7 : Nat) (none : Option Nat)).length := by
    intro e
    simp only [List.length_replicate]
    exact e.isLt
  refine ⟨?_, ?_, ?_, ?_, ?_⟩
  · intro i
    show i ∈ chartNewOrder lines ↔ _
    rw [chartNewOrder, List.mem_mergeSort, List.mem_filter]
    simp [Option.isNone_iff_eq_none]
  · show (chartNewOrder lines).Pairwise _
    refine List.Pairwise.imp ?_
      (List.sorted_mergeSort (chartOrderKeyLe_trans lines) (chartOrderKeyLe_total lines) _)
    intro a b hab
    simpa only [chartOrderKeyLe, Bool.or_eq_true, Bool.and_eq_true, decide_eq_true_eq]
      using hab
  · show (chartNewOrder lines).Nodup
    rw [chartNewOrder]
    exact ((List.mergeSort_perm _ _).nodup_iff).mpr
      (List.Nodup.filter _ (List.nodup_range _))
  · intro e i h
    rw [show (Chart.new o lines bpm st ex hs).attach_ui = chartNewAttach lines from rfl,
      chartNewAttach, foldl_attachStep_get lines e _ _ (hlen e)] at h
    rcases foldl_slot_sound lines e _ _ _ h with hbase | hmem
    · rw [List.getElem?_replicate_of_lt (by simp only [List.length_replicate] at *; exact e.isLt)] at hbase
      simp at hbase
    · exact ⟨List.mem_range.mp hmem.1, hmem.2⟩
  · intro e i hi hm hlast
    rw [show (Chart.new o lines bpm st ex hs).attach_ui = chartNewAttach lines from rfl,
      chartNewAttach, foldl_attachStep_get lines e _ _ (hlen e)]
    exact foldl_slot_last lines e _ i hi hm hlast _

/-- Witness for C3 (amended) at a concrete input: with two lines attached to
slot 0, the table records the last one (index 1). -/
theorem c3_render_order_amended_witness :
    (Chart.new 0 [lineSlot0, lineSlot0] bpm120 settings0 extra0 []).attach_ui[(0 : Fin 7).val]?
      = some (some 1) := by
  refine (c3_render_order_amended 0 [lineSlot0, lineSlot0] bpm120 settings0 extra0
    []).2.2.2.2 0 1 (by decide) rfl ?_
  intro j hj1 hj2
  simp only [List.length_cons, List.length_nil] at hj2
  exact absurd hj1 (by omega)

/-- Claim C9: `Chart::reset` sets every note's judge state to `NotJudged` and
clears its `attr` flag, rebuilds every line's cache from its (reset) notes,
zeroes every video's `next_frame`, and leaves every other note field and the
chart's `offset`, `order`, `attach_ui`, `settings`, `bpm_list`, hitsounds and
effects unchanged. -/
theorem c9_chart_reset (c : Chart) :
    ((Chart.reset c).offset = c.offset) ∧
    ((Chart.reset c).order = c.order) ∧
    ((Chart.reset c).attach_ui = c.attach_ui) ∧
    ((Chart.reset c).settings = c.settings) ∧
    ((Chart.reset c).bpm_list = c.bpm_list) ∧
    ((Chart.reset c).hitsounds = c.hitsounds) ∧
    ((Chart.reset c).extra.effects = c.extra.effects) ∧
    ((Chart.reset c).extra.global_effects = c.extra.global_effects) ∧
    ((Chart.reset c).extra.videos
      = c.extra.videos.map fun v => { v with next_frame := 0 }) ∧
    (∀ v : Video, ({ v with next_frame := 0 } : Video).next_frame = 0 ∧
      ({ v with next_frame := 0 } : Video).content = v.content) ∧
    ((Chart.reset c).lines = c.lines.map fun l =>
      { l with
        notes := l.notes.map Note.resetJudge
        cache := JudgeLineCache.reset (l.notes.map Note.resetJudge) }) ∧
    (∀ n : Note, (Note.resetJudge n).judge = JudgeStatus.notJudged ∧
      (Note.resetJudge n).attr = false ∧
      (Note.resetJudge n).kind = n.kind ∧ (Note.resetJudge n).time = n.time ∧
      (Note.resetJudge n).height = n.height ∧ (Note.resetJudge n).speed = n.speed ∧
      (Note.resetJudge n).above = n.above ∧
      (Note.resetJudge n).multiple_hint = n.multiple_hint ∧
      (Note.resetJudge n).fake = n.fake ∧ (Note.resetJudge n).hitsound = n.hitsound ∧
      (Note.resetJudge n).format = n.format ∧ (Note.resetJudge n).object = n.object) := by
  refine ⟨rfl, rfl, rfl, rfl, rfl, rfl, rfl, rfl, rfl, fun v => ⟨rfl, rfl⟩, ?_, ?_⟩
  · simp only [Chart.reset, List.map_map]
    rfl
  · intro n
    exact ⟨rfl, rfl, rfl, rfl, rfl, rfl, rfl, rfl, rfl, rfl, rfl, rfl⟩

/-- `parseDefault` succeeds exactly on declarations that are well-formed in
the sense of the specification (`captureWF`). -/
theorem parseDefault_ok_iff (c : Capture) :
    (∃ u, parseDefault c = Except.ok u) ↔ captureWF c = true := by
  unfold parseDefault captureWF
  by_cases hf : c.type_name = "float"
  · simp only [hf]
    cases hp : parseNum c.value <;> simp [hp]
  · by_cases h2 : c.type_name = "vec2"
    · simp only [hf, h2]
      cases hs : splitOnceComma c.value with
      | none => simp [hs, hf]
      | some p =>
        cases hx : parseNum p.1.trim <;> cases hy : parseNum p.2.trim <;>
          simp [hs, hx, hy, hf]
    · by_cases h4 : c.type_name = "vec4"
      · simp only [hf, h2, h4]
        rcases hv : (c.value.splitOn ",").map String.trim with
          _ | ⟨s0, _ | ⟨s1, _ | ⟨s2, _ | ⟨s3, _ | ⟨s4, rest⟩⟩⟩⟩⟩ <;>
          try simp
        cases hp0 : parseNum s0 <;> cases hp1 : parseNum s1 <;>
          cases hp2 : parseNum s2 <;> cases hp3 : parseNum s3 <;>
          simp [hp0, hp1, hp2, hp3, hf, h2]
      · simp [hf, h2, h4]

/-- Claim C10: `SimpleRecord::update(other)` leaves `self` holding the
componentwise maximum of the two scores and accuracies and the logical-or of
the two full-combo flags, and returns `true` exactly when at least one field
changed; hence updating with itself (or any record no better in every field)
returns `false` and leaves the record unchanged. -/
theorem c10_simple_record_update (self other : SimpleRecord) :
    ((SimpleRecord.update self other).1.score = max self.score other.score) ∧
    ((SimpleRecord.update self other).1.accuracy = max self.accuracy other.accuracy) ∧
    ((SimpleRecord.update self other).1.full_combo = (self.full_combo || other.full_combo)) ∧
    ((SimpleRecord.update self other).2 = true ↔ (SimpleRecord.update self other).1 ≠ self) := by
  obtain ⟨s1, a1, f1⟩ := self
  obtain ⟨s2, a2, f2⟩ := other
  have hupd : SimpleRecord.update ⟨s1, a1, f1⟩ ⟨s2, a2, f2⟩ =
      (⟨if s1 < s2 then s2 else s1, if a1 < a2 then a2 else a1, f1 || f2⟩,
        (decide (s1 < s2) || decide (a1 < a2) || (f2 && !f1))) := by
    simp only [SimpleRecord.update]
    by_cases hs : s1 < s2 <;> by_cases ha : a1 < a2 <;> cases f1 <;> cases f2 <;>
      simp [hs, ha]
  rw [hupd]
  refine ⟨?_, ?_, ?_, ?_⟩
  · show (if s1 < s2 then s2 else s1) = max s1 s2
    rcases lt_or_le s1 s2 with h | h
    · rw [if_pos h, max_eq_right h.le]
    · rw [if_neg (not_lt.mpr h), max_eq_left h]
  · show (if a1 < a2 then a2 else a1) = max a1 a2
    rcases lt_or_le a1 a2 with h | h
    · rw [if_pos h, max_eq_right h.le]
    · rw [if_neg (not_lt.mpr h), max_eq_left h]
  · rfl
  · have h1 : ((if s1 < s2 then s2 else s1) = s1) ↔ ¬ s1 < s2 := by
      split_ifs with h
      · simp [h, h.ne']
      · simp [h]
    have h2 : ((if a1 < a2 then a2 else a1) = a1) ↔ ¬ a1 < a2 := by
      split_ifs with h
      · simp [h, h.ne']
      · simp [h]
    have h3 : ((f1 || f2) = f1) ↔ ¬ (f2 = true ∧ f1 = false) := by
      cases f1 <;> cases f2 <;> simp
    simp only [ne_eq, SimpleRecord.mk.injEq, h1, h2, h3, Bool.or_eq_true,
      decide_eq_true_eq, Bool.and_eq_true, Bool.not_eq_true']
    tauto

/-- Claim C1: the per-frame phase step only moves forward through
`Starting → BeforeMusic → Playing → Ending`; it leaves `Starting` exactly
when logical time reaches `BEFORE_DURATION = 1.2`, leaves `BeforeMusic`
exactly when logical time reaches 0 (seeking and starting the music), enters
`Ending` exactly when `t > track_length + WAIT_TIME` with `WAIT_TIME = 0.5`,
and once in `Ending` it resolves — carrying `judge.result()` in the
normal/no-retry/view modes — exactly when a further `AFTER_TIME + 0.3`
seconds have passed (`AFTER_TIME = 0.7`; exercise mode never resolves,
tweak-offset mode resolves without the result payload). -/
theorem c1_phase_machine (i : PhaseIn) :
    (GState.rank (updatePhase i).state = GState.rank i.state ∨
      GState.rank (updatePhase i).state = GState.rank i.state + 1) ∧
    (i.state = GState.starting →
      ((updatePhase i).state = GState.beforeMusic ↔ i.time ≥ BEFORE_DURATION)) ∧
    (i.state = GState.beforeMusic →
      (((updatePhase i).state = GState.playing ∧
        (updatePhase i).music_seek_play = some i.time) ↔ i.time ≥ 0)) ∧
    (i.state = GState.playing →
      ((updatePhase i).state = GState.ending ↔ i.time > i.track_length + WAIT_TIME)) ∧
    (i.state ≠ GState.ending → (updatePhase i).resolved = none) ∧
    (i.state = GState.ending →
      ((updatePhase i).resolved ≠ none ↔
        (i.time - i.track_length - WAIT_TIME ≥ AFTER_TIME + 3/10 ∧
          i.mode ≠ GameMode.exercise))) ∧
    (i.state = GState.ending →
      i.time - i.track_length - WAIT_TIME ≥ AFTER_TIME + 3/10 →
      (i.mode = GameMode.normal ∨ i.mode = GameMode.noRetry ∨ i.mode = GameMode.view) →
      (updatePhase i).resolved = some (NextSceneM.endingScene i.result)) := by
  obtain ⟨st, time, tl, es, off, mode, alpha, result⟩ := i
  cases st <;> cases mode <;>
    simp_all [updatePhase, GState.rank] <;>
    split_ifs <;> simp_all

/-- Witness for C1 at concrete inputs: a `Playing` frame past
`track_length + WAIT_TIME` enters `Ending`, and an `Ending` frame past
`AFTER_TIME + 0.3` in normal mode resolves with the judge result. -/
theorem c1_phase_machine_witness :
    (updatePhase ⟨GState.playing, 11, 10, 0, 0, GameMode.normal, 1, jres0⟩).state
        = GState.ending ∧
    (updatePhase ⟨GState.ending, 20, 10, 0, 0, GameMode.normal, 1, jres0⟩).resolved
        = some (NextSceneM.endingScene jres0) := by
  constructor
  · exact ((c1_phase_machine ⟨GState.playing, 11, 10, 0, 0, GameMode.normal, 1,
      jres0⟩).2.2.2.1 rfl).mpr (by norm_num [WAIT_TIME])
  · exact (c1_phase_machine ⟨GState.ending, 20, 10, 0, 0, GameMode.normal, 1,
      jres0⟩).2.2.2.2.2.2 rfl (by norm_num [WAIT_TIME, AFTER_TIME]) (Or.inl rfl)

/-- Counterexample to claim C2 as stated: during `Playing`, at
`tm.now() = 10.3` with `track_length = 10`, offset 0 and no seek, the value
stored into `Resource::time` is `10.3 > track_length`, violating
`track_length ≥ t`. -/
theorem c2_stored_time_cex :
    (updatePhase ⟨GState.playing, 103/10, 10, 0, 0, GameMode.normal, 1, jres0⟩).state
        = GState.playing ∧
    ¬ ((10 : ℚ) ≥
        storedTime ⟨GState.playing, 103/10, 10, 0, 0, GameMode.normal, 1, jres0⟩) := by
  have hst : storedTime ⟨GState.playing, 103/10, 10, 0, 0, GameMode.normal, 1, jres0⟩
      = 103/10 := by
    rw [storedTime]
    norm_num [updatePhase, WAIT_TIME]
  constructor
  · norm_num [updatePhase, WAIT_TIME]
  · rw [hst]
    norm_num

/-- Amended claim C2: the stored time always satisfies `t ≥ 0` (hence
`t ≥ -BEFORE_DURATION`); the `track_length` upper bound holds in the
`Ending` state whenever the total offset and the track length are
nonnegative, but not during `Playing`, where the stored time can exceed
`track_length` by up to `WAIT_TIME` (and by more on the frame that first
crosses `track_length + WAIT_TIME`). -/
theorem c2_stored_time_amended (i : PhaseIn) :
    storedTime i ≥ 0 ∧
    storedTime i ≥ -BEFORE_DURATION ∧
    (i.state = GState.ending → 0 ≤ i.offset → 0 ≤ i.track_length →
      storedTime i ≤ i.track_length) := by
  refine ⟨le_max_right _ _, le_trans (by norm_num [BEFORE_DURATION]) (le_max_right _ _), ?_⟩
  intro hst hoff htl
  have : (updatePhase i).timeVal = i.track_length := by
    obtain ⟨st, time, tl, es, off, mode, alpha, result⟩ := i
    cases st <;> simp_all [updatePhase]
  rw [storedTime, this]
  exact max_le (by linarith) htl

/-- Witness for C2 (amended) at a concrete `Ending` input: the stored time
is bounded by the track length. -/
theorem c2_stored_time_amended_witness :
    storedTime ⟨GState.ending, 20, 10, 2, 1, GameMode.normal, 1, jres0⟩ ≤ 10 :=
  (c2_stored_time_amended ⟨GState.ending, 20, 10, 2, 1, GameMode.normal, 1, jres0⟩).2.2
    rfl (by decide) (by decide)

/-- Claim C7: an effect runs only inside its `time_range`: `Effect::update`
records `res.time` and advances its animated uniforms' time exactly when the
time lies inside the range, and `Effect::render` returns before any GPU work
exactly when the recorded time lies outside the range. -/
theorem c7_effect_time_range (e : Effect) (res : Resource) :
    ((Effect.update e res).t = some res.time) ∧
    ((Effect.update e res).time_range = e.time_range) ∧
    ((Effect.update e res).uniforms =
      if rangeContains e.time_range res.time then
        e.uniforms.map (fun u => u.set_time res.time)
      else e.uniforms) ∧
    (Effect.render (Effect.update e res) = none ↔
      rangeContains e.time_range res.time = false) ∧
    (Effect.render e = none ↔ rangeContainsOpt e.time_range e.t = false) := by
  refine ⟨?_, ?_, ?_, ?_, ?_⟩ <;>
    simp only [Effect.update, Effect.render] <;>
    split_ifs <;>
    simp_all [rangeContainsOpt]

/-- Bind in the `Except` monad yields `ok` exactly through an `ok`. -/
theorem except_bind_ok {ε α β : Type} (x : Except ε α) (f : α → Except ε β) (b : β) :
    (x >>= f) = Except.ok b ↔ ∃ a, x = Except.ok a ∧ f a = Except.ok b := by
  cases x <;> simp [Bind.bind, Except.bind]

/-- `mapM parseDefault` succeeds exactly when every capture is well-formed. -/
theorem mapM_parseDefault_ok_iff (caps : List Capture) :
    (∃ ds, caps.mapM parseDefault = Except.ok ds) ↔
      ∀ c ∈ caps, captureWF c = true := by
  induction caps with
  | nil => exact ⟨fun _ => by simp, fun _ => ⟨[], rfl⟩⟩
  | cons a l ih =>
    constructor
    · rintro ⟨ds, hds⟩
      rw [List.mapM_cons, except_bind_ok] at hds
      obtain ⟨u, hu, hds⟩ := hds
      rw [except_bind_ok] at hds
      obtain ⟨usx, husx, -⟩ := hds
      intro c hc
      rcases List.mem_cons.mp hc with rfl | hc
      · exact (parseDefault_ok_iff c).mp ⟨u, hu⟩
      · exact (ih.mp ⟨usx, husx⟩) c hc
    · intro h
      obtain ⟨u, hu⟩ := (parseDefault_ok_iff a).mpr (h a (List.mem_cons_self a l))
      obtain ⟨usx, husx⟩ := ih.mpr fun c hc => h c (List.mem_cons_of_mem a hc)
      refine ⟨u :: usx, ?_⟩
      rw [List.mapM_cons, except_bind_ok]
      exact ⟨u, hu, by rw [except_bind_ok]; exact ⟨usx, husx, rfl⟩⟩

/-- `mapM parseDefault` relates inputs and outputs pairwise. -/
theorem mapM_parseDefault_forall₂ :
    ∀ (caps : List Capture) (ds : List EUniform),
      caps.mapM parseDefault = Except.ok ds →
      List.Forall₂ (fun c u => parseDefault c = Except.ok u) caps ds := by
  intro caps
  induction caps with
  | nil =>
    intro ds h
    simp only [List.mapM_nil] at h
    obtain rfl : ([] : List EUniform) = ds := by
      simpa [pure, Except.pure] using h
    exact List.Forall₂.nil
  | cons a l ih =>
    intro ds h
    rw [List.mapM_cons, except_bind_ok] at h
    obtain ⟨u, hu, h⟩ := h
    rw [except_bind_ok] at h
    obtain ⟨usx, husx, h⟩ := h
    obtain rfl : u :: usx = ds := by
      simpa [pure, Except.pure] using h
    exact List.Forall₂.cons hu (ih usx husx)

/-- The shape of a successfully parsed default: the constructor of the value
matches the declared type. -/
theorem parseDefault_ok_shape (c : Capture) (u : EUniform)
    (h : parseDefault c = Except.ok u) :
    (c.type_name = "float" → ∃ v, parseNum c.value = some v ∧
      u = EUniform.const c.name (UniformVal.float v)) ∧
    (c.type_name = "vec2" → ∃ x y xv yv, splitOnceComma c.value = some (x, y) ∧
      parseNum x.trim = some xv ∧ parseNum y.trim = some yv ∧
      u = EUniform.const c.name (UniformVal.vec2 xv yv)) ∧
    (c.type_name = "vec4" → ∃ r g b a,
      ((c.value.splitOn ",").map String.trim).map parseNum
        = [some r, some g, some b, some a] ∧
      u = EUniform.const c.name (UniformVal.vec4 r g b a)) := by
  refine ⟨?_, ?_, ?_⟩ <;> intro ht
  · cases hp : parseNum c.value with
    | none => simp [parseDefault, ht, hp] at h
    | some v =>
      simp [parseDefault, ht, hp] at h
      exact ⟨v, rfl, h.symm⟩
  · cases hs : splitOnceComma c.value with
    | none => simp [parseDefault, ht, hs] at h
    | some p =>
      obtain ⟨x, y⟩ := p
      cases hx : parseNum x.trim with
      | none => simp [parseDefault, ht, hs, hx] at h
      | some xv =>
        cases hy : parseNum y.trim with
        | none => simp [parseDefault, ht, hs, hx, hy] at h
        | some yv =>
          simp [parseDefault, ht, hs, hx, hy] at h
          exact ⟨x, y, xv, yv, rfl, hx, hy, h.symm⟩
  · rcases hv : (c.value.splitOn ",").map String.trim with
      _ | ⟨s0, _ | ⟨s1, _ | ⟨s2, _ | ⟨s3, _ | ⟨s4, rest⟩⟩⟩⟩⟩ <;>
      try simp [parseDefault, ht, hv] at h
    cases hp0 : parseNum s0 <;> cases hp1 : parseNum s1 <;>
      cases hp2 : parseNum s2 <;> cases hp3 : parseNum s3 <;>
      simp only [List.map_cons, List.map_nil, hp0, hp1, hp2, hp3] at h <;>
      try simp at h
    exact ⟨_, _, _, _, by simp [hv, hp0, hp1, hp2, hp3], h.symm⟩

/-- Claim C8: `Effect::new` parses every captured declaration
`uniform TYPE name; // %default%` into a constant default uniform — a float,
a vec2 from `x,y`, or a vec4 from `r,g,b,a` — and construction succeeds
exactly when every declaration has TYPE among float/vec2/vec4 and a
well-formed value (wrong component counts and unparsable numbers are
rejected with an error from `new` itself; the per-frame `Effect.update` and
`Effect.render` are total functions and never parse). -/
theorem c8_effect_new (tr : ℚ × ℚ) (caps : List Capture) (us : List EUniform)
    (g : Bool) :
    ((∃ e, Effect.new tr caps us g = Except.ok e) ↔
      ∀ c ∈ caps, captureWF c = true) ∧
    (∀ e, Effect.new tr caps us g = Except.ok e →
      List.Forall₂
        (fun (c : Capture) (u : EUniform) =>
          (c.type_name = "float" → ∃ v, parseNum c.value = some v ∧
            u = EUniform.const c.name (UniformVal.float v)) ∧
          (c.type_name = "vec2" → ∃ x y xv yv,
            splitOnceComma c.value = some (x, y) ∧
            parseNum x.trim = some xv ∧ parseNum y.trim = some yv ∧
            u = EUniform.const c.name (UniformVal.vec2 xv yv)) ∧
          (c.type_name = "vec4" → ∃ r gc b a,
            ((c.value.splitOn ",").map String.trim).map parseNum
              = [some r, some gc, some b, some a] ∧
            u = EUniform.const c.name (UniformVal.vec4 r gc b a)))
        caps e.defaults) := by
  constructor
  · rw [← mapM_parseDefault_ok_iff]
    constructor
    · rintro ⟨e, he⟩
      rw [Effect.new, except_bind_ok] at he
      obtain ⟨ds, hds, -⟩ := he
      exact ⟨ds, hds⟩
    · rintro ⟨ds, hds⟩
      refine ⟨⟨tr, none, dedupByName (ds.map EUniform.uniform_pair
        ++ [("time", UniformType.float1), ("screenSize", UniformType.float2),
            ("UVScale", UniformType.float2)]
        ++ us.map EUniform.uniform_pair), ds, us, g⟩, ?_⟩
      rw [Effect.new, except_bind_ok]
      exact ⟨ds, hds, rfl⟩
  · intro e he
    rw [Effect.new, except_bind_ok] at he
    obtain ⟨ds, hds, hok⟩ := he
    obtain rfl : ds = e.defaults := by
      cases hok
      rfl
    exact (mapM_parseDefault_forall₂ caps _ hds).imp
      fun a b hcu => parseDefault_ok_shape a b hcu

/-- Witness for C8 at a concrete input: a single well-formed `float`
declaration constructs successfully and yields a float default with the
declared name. -/
theorem c8_effect_new_witness :
    ∃ e, Effect.new (0, 1) [⟨"float", "power", "3"⟩] [] false = Except.ok e ∧
      ∃ v, parseNum "3" = some v ∧
        e.defaults = [EUniform.const "power" (UniformVal.float v)] := by
  have h := c8_effect_new (0, 1) [⟨"float", "power", "3"⟩] [] false
  obtain ⟨e, he⟩ := h.1.mpr (by
    intro c hc
    rcases List.mem_cons.mp hc with rfl | hc
    · rfl
    · cases hc)
  have hf₂ := h.2 e he
  obtain ⟨u, ds', hR, htail, hds⟩ := List.forall₂_cons_left_iff.mp hf₂
  have hnil : ds' = [] := by
    cases htail
    rfl
  obtain ⟨v, hv, hu⟩ := hR.1 rfl
  exact ⟨e, he, v, hv, by rw [hds, hnil, hu]⟩

/-- Counterexample to claim C4 as stated: "advances `next_particle_time` by
`30/bpm_now / speed`" fails when a frame arrives late — the code sets the
next particle time to `res.time + 30/bpm_now/speed`, not to the old value
plus that step. With `next_particle_time = 1/2`, `res.time = 1`, 120 BPM and
speed 1, the stored value is `1 + 1/4 = 5/4`, while the claim's reading
gives `1/2 + 1/4 = 3/4`. -/
theorem c4_hold_particle_cex :
    ((Note.update note4 res0 0 Affine.id ctrlNone 0 bpm120 0 0).1.judge
      = JudgeStatus.hold true (5/4) 0 0) ∧
    ¬ ((5/4 : ℚ) = 1/2 + (30 / bpm120.now_bpm note4.time) / res0.config.speed) := by
  constructor
  · have h1 : ((1 : ℚ)/2) ≤ res0.time := by norm_num [res0]
    simp only [Note.update, note4]
    rw [if_pos h1]
    simp [res0, cfg0, bpm120]
    norm_num
  · norm_num [bpm120, note4, res0, cfg0]

/-- Amended claim C4: in the `Hold(perfect, next_particle_time, …)` judge
state with `res.time ≥ next_particle_time`, `Note::update` emits one hit
particle at the note's world transform (under the parent transform), with
colour `fx_perfect` when `perfect` and neither `all_good` nor `all_bad` is
set and `fx_good` otherwise, and SETS `next_particle_time` to
`res.time + (30/bpm_now)/speed`, where `bpm_now` is resolved at the note's
array index for the PGR format and at the note's time otherwise; when
`res.time < next_particle_time` or the note is not in a `Hold` state, no
particle is emitted and the judge state is unchanged. -/
theorem c4_hold_particle_amended (n : Note) (res : Resource) (parent_rot : ℚ)
    (parent_tr : Affine) (ctrl : CtrlObject) (lh : ℚ) (bpm : BpmList)
    (index : Nat) (rngRot : ℚ) :
    (∀ p a fid ok, n.judge = JudgeStatus.hold p a fid ok → a ≤ res.time →
      (Note.update n res parent_rot parent_tr ctrl lh bpm index rngRot).1.judge
        = JudgeStatus.hold p
            (res.time + (30 / bpm.now_bpm
              (if n.format = ChartFormat.pgr then (index : ℚ) else n.time))
              / res.config.speed) fid ok ∧
      ∃ pt, (Note.update n res parent_rot parent_tr ctrl lh bpm index rngRot).2.2
          = some pt ∧
        pt.color = (if p && !res.config.all_good && !res.config.all_bad then
          res.res_pack.info.fx_perfect else res.res_pack.info.fx_good) ∧
        pt.rotation = parent_rot +
          (if res.config.chart_debug then (if n.above then 0 else 180) else rngRot) ∧
        pt.transform = res.model.comp (parent_tr.comp
          (Note.now_transform
            { n with
              object := n.object.set_time res.time
              judge := JudgeStatus.hold p
                (res.time + (30 / bpm.now_bpm
                  (if n.format = ChartFormat.pgr then (index : ℚ) else n.time))
                  / res.config.speed) fid ok }
            res
            (Note.init_ctrl_obj
              { n with
                object := n.object.set_time res.time
                judge := JudgeStatus.hold p
                  (res.time + (30 / bpm.now_bpm
                    (if n.format = ChartFormat.pgr then (index : ℚ) else n.time))
                    / res.config.speed) fid ok }
              ctrl lh) 0 0))) ∧
    (∀ p a fid ok, n.judge = JudgeStatus.hold p a fid ok → res.time < a →
      (Note.update n res parent_rot parent_tr ctrl lh bpm index rngRot).1.judge
          = n.judge ∧
      (Note.update n res parent_rot parent_tr ctrl lh bpm index rngRot).2.2
          = none) ∧
    ((∀ p a fid ok, n.judge ≠ JudgeStatus.hold p a fid ok) →
      (Note.update n res parent_rot parent_tr ctrl lh bpm index rngRot).1.judge
          = n.judge ∧
      (Note.update n res parent_rot parent_tr ctrl lh bpm index rngRot).2.2
          = none) := by
  refine ⟨?_, ?_, ?_⟩
  · intro p a fid ok hj hge
    simp only [Note.update, hj]
    rw [if_pos hge]
    exact ⟨rfl, _, rfl, rfl, rfl, rfl⟩
  · intro p a fid ok hj hlt
    simp only [Note.update, hj]
    rw [if_neg (not_le.mpr hlt)]
    exact ⟨rfl, rfl⟩
  · intro hne
    cases hjj : n.judge with
    | hold p a fid ok => exact absurd hjj (hne p a fid ok)
    | notJudged => simp [Note.update, hjj]
    | preJudge => simp [Note.update, hjj]
    | judged => simp [Note.update, hjj]

/-- Witness for C4 (amended) at a concrete input: a hold note whose particle
timer has expired gets its timer set from the current frame time. -/
theorem c4_hold_particle_amended_witness :
    (Note.update note4 res0 0 Affine.id ctrlNone 0 bpm120 0 0).1.judge
      = JudgeStatus.hold true
          (res0.time + (30 / bpm120.now_bpm
            (if note4.format = ChartFormat.pgr then ((0 : Nat) : ℚ) else note4.time))
            / res0.config.speed) 0 0 :=
  ((c4_hold_particle_amended note4 res0 0 Affine.id ctrlNone 0 bpm120 0 0).1
    true (1/2) 0 0 rfl (by norm_num [res0])).1

/-- Counterexample to claim C5 as stated: a quad may have all four
screen-space corners outside the `±1/chart_ratio` cull rectangle and still
be drawn, when its corners lie on different sides (its bounding box covers
the rectangle). With corners `(±2, ±2)` and `chart_ratio = 1`, every corner
is outside the `±1` square, yet `draw_tex_pts` pushes vertices. -/
theorem c5_note_cull_cex :
    ((res0.world_to_screen cexQuad.p0).x < -(1 / res0.config.chart_ratio) ∨
      1 / res0.config.chart_ratio < (res0.world_to_screen cexQuad.p0).x ∨
      (res0.world_to_screen cexQuad.p0).y < -(1 / res0.config.chart_ratio) ∨
      1 / res0.config.chart_ratio < (res0.world_to_screen cexQuad.p0).y) ∧
    ((res0.world_to_screen cexQuad.p1).x < -(1 / res0.config.chart_ratio) ∨
      1 / res0.config.chart_ratio < (res0.world_to_screen cexQuad.p1).x ∨
      (res0.world_to_screen cexQuad.p1).y < -(1 / res0.config.chart_ratio) ∨
      1 / res0.config.chart_ratio < (res0.world_to_screen cexQuad.p1).y) ∧
    ((res0.world_to_screen cexQuad.p2).x < -(1 / res0.config.chart_ratio) ∨
      1 / res0.config.chart_ratio < (res0.world_to_screen cexQuad.p2).x ∨
      (res0.world_to_screen cexQuad.p2).y < -(1 / res0.config.chart_ratio) ∨
      1 / res0.config.chart_ratio < (res0.world_to_screen cexQuad.p2).y) ∧
    ((res0.world_to_screen cexQuad.p3).x < -(1 / res0.config.chart_ratio) ∨
      1 / res0.config.chart_ratio < (res0.world_to_screen cexQuad.p3).x ∨
      (res0.world_to_screen cexQuad.p3).y < -(1 / res0.config.chart_ratio) ∨
      1 / res0.config.chart_ratio < (res0.world_to_screen cexQuad.p3).y) ∧
    draw_tex_pts res0 (texUnit 1) 0 cexQuad ⟨1, 1, 1, 1⟩ cexParams ≠ none := by
  have hmap : ∀ p : Point, res0.world_to_screen p = p := by
    intro p
    simp [Resource.world_to_screen, res0, Affine.comp, Affine.apply, Affine.id]
  refine ⟨?_, ?_, ?_, ?_, ?_⟩
  · rw [hmap]
    exact Or.inl (by norm_num [cexQuad, res0, cfg0])
  · rw [hmap]
    exact Or.inr (Or.inl (by norm_num [cexQuad, res0, cfg0]))
  · rw [hmap]
    exact Or.inr (Or.inl (by norm_num [cexQuad, res0, cfg0]))
  · rw [hmap]
    exact Or.inl (by norm_num [cexQuad, res0, cfg0])
  · rw [draw_tex_pts]
    rw [if_neg]
    · simp
    · simp only [Quad4.map, hmap]
      norm_num [cexQuad, res0, cfg0, min_def, max_def]

/-- Amended claim C5: a note is culled before any quad reaches the batch
buffer if it is already `Judged` and not a Hold (`Note::render` returns
immediately), or if the quad's screen-space bounding box lies entirely to
one side of the `±1/chart_ratio` cull rectangle — all corners beyond the
same edge (`draw_tex_pts` pushes no vertices); corners that are outside the
rectangle on different sides do NOT trigger the cull. -/
theorem c5_note_cull_amended :
    (∀ (n : Note) (res : Resource) (config : RenderConfig) (ctrl : CtrlObject)
        (bpm : BpmList) (lsda : Bool),
      n.judge.isJudged = true → n.kind.isHold = false →
      Note.render n res config ctrl bpm lsda = []) ∧
    (∀ (res : Resource) (tex : Texture) (order : Int) (p : Quad4)
        (color : Color) (params : DrawParams),
      (min (min (res.world_to_screen p.p0).x (res.world_to_screen p.p1).x)
          (min (res.world_to_screen p.p2).x (res.world_to_screen p.p3).x)
          > 1 / res.config.chart_ratio
        ∨ max (max (res.world_to_screen p.p0).x (res.world_to_screen p.p1).x)
            (max (res.world_to_screen p.p2).x (res.world_to_screen p.p3).x)
            < -1 / res.config.chart_ratio
        ∨ min (min (res.world_to_screen p.p0).y (res.world_to_screen p.p1).y)
            (min (res.world_to_screen p.p2).y (res.world_to_screen p.p3).y)
            > 1 / res.config.chart_ratio
        ∨ max (max (res.world_to_screen p.p0).y (res.world_to_screen p.p1).y)
            (max (res.world_to_screen p.p2).y (res.world_to_screen p.p3).y)
            < -1 / res.config.chart_ratio) →
      draw_tex_pts res tex order p color params = none) := by
  constructor
  · intro n res config ctrl bpm lsda hj hnh
    simp only [Note.render]
    rw [if_pos (by rw [hj, hnh]; rfl)]
  · intro res tex order p color params h
    rw [draw_tex_pts, if_pos]
    exact h

/-- Witness for C5 (amended): a judged click note produces no batches, and
the fully-left quad (corners at x = ±…, all beyond the right edge) is
culled. -/
theorem c5_note_cull_amended_witness :
    Note.render { note4 with kind := NoteKind.click, judge := JudgeStatus.judged }
        res0 rcfg0 ctrlNone bpm120 false = [] ∧
    draw_tex_pts res0 (texUnit 1) 0 ⟨⟨2, 0⟩, ⟨3, 0⟩, ⟨3, 1⟩, ⟨2, 1⟩⟩ ⟨1, 1, 1, 1⟩
        cexParams = none := by
  constructor
  · exact c5_note_cull_amended.1 _ res0 rcfg0 ctrlNone bpm120 false rfl rfl
  · refine c5_note_cull_amended.2 res0 (texUnit 1) 0 _ ⟨1, 1, 1, 1⟩ cexParams ?_
    have hmap : ∀ p : Point, res0.world_to_screen p = p := by
      intro p
      simp [Resource.world_to_screen, res0, Affine.comp, Affine.apply, Affine.id]
    simp only [hmap]
    exact Or.inl (by norm_num [res0, cfg0, min_def])

/-- Every vertex pushed by `draw_tex_pts` carries the colour it was given. -/
theorem draw_tex_pts_color (res : Resource) (tex : Texture) (order : Int)
    (p : Quad4) (color : Color) (params : DrawParams) (q : QuadCmd)
    (h : draw_tex_pts res tex order p color params = some q) :
    q.v0.color = color ∧ q.v1.color = color ∧ q.v2.color = color ∧
      q.v3.color = color := by
  rw [draw_tex_pts] at h
  split at h
  · exact absurd h (by simp)
  · obtain rfl := Option.some.inj h
    exact ⟨rfl, rfl, rfl, rfl⟩

/-- Every vertex pushed by `draw_tex` carries the colour it was given. -/
theorem draw_tex_color (res : Resource) (tex : Texture) (order : Int)
    (x y : ℚ) (color : Color) (params : DrawParams) (clip : Bool) (q : QuadCmd)
    (h : draw_tex res tex order x y color params clip = some q) :
    q.v0.color = color ∧ q.v1.color = color ∧ q.v2.color = color ∧
      q.v3.color = color := by
  rw [draw_tex] at h
  split at h
  · exact absurd h (by simp)
  · split at h
    · exact absurd h (by simp)
    · exact draw_tex_pts_color _ _ _ _ _ _ _ h

/-- Every vertex pushed by `draw_center` carries the colour it was given. -/
theorem draw_center_color (res : Resource) (tex : Texture) (order : Int)
    (scale : ℚ) (color : Color) (q : QuadCmd)
    (h : draw_center res tex order scale color = some q) :
    q.v0.color = color ∧ q.v1.color = color ∧ q.v2.color = color ∧
      q.v3.color = color := by
  rw [draw_center] at h
  exact draw_tex_color _ _ _ _ _ _ _ _ _ h

/-- With draw-below off, every vertex `noteRenderDraw` pushes has its alpha
equal to the given colour's alpha times the fade-out factor
`min (time - res.time) 0 / FADEOUT_TIME + 1`. -/
theorem noteRenderDraw_alpha (n : Note) (res : Resource) (config : RenderConfig)
    (ctrl : CtrlObject) (color3 : Color) (scale : ℚ) (order : Int)
    (base : ℚ) (tex : Texture) (q : QuadCmd)
    (hdb : config.draw_below = false)
    (hq : q ∈ noteRenderDraw n res config ctrl color3 scale order base tex) :
    q.v0.color.a = color3.a * (min (n.time - res.time) 0 / FADEOUT_TIME + 1) ∧
    q.v1.color.a = color3.a * (min (n.time - res.time) 0 / FADEOUT_TIME + 1) ∧
    q.v2.color.a = color3.a * (min (n.time - res.time) 0 / FADEOUT_TIME + 1) ∧
    q.v3.color.a = color3.a * (min (n.time - res.time) 0 / FADEOUT_TIME + 1) := by
  rw [noteRenderDraw, hdb] at hq
  simp only [Bool.not_false, eq_self_iff_true, if_true, Option.mem_toList,
    Option.mem_def] at hq
  have hcol := draw_center_color _ _ _ _ _ _ hq
  refine ⟨?_, ?_, ?_, ?_⟩
  · rw [hcol.1]
  · rw [hcol.2.1]
  · rw [hcol.2.2.1]
  · rw [hcol.2.2.2]

/-- The alpha of the colour `Note::render` hands to its draw call is
`preFadeAlpha`. -/
theorem noteColor3_alpha (n : Note) (res : Resource) (config : RenderConfig)
    (ctrl0 : CtrlObject) (lsda : Bool) :
    (noteColor3 n res config (n.init_ctrl_obj ctrl0 config.line_height) lsda).a
      = preFadeAlpha n res config ctrl0 lsda := by
  unfold noteColor3 preFadeAlpha
  cases hfc : noteFadeCull n res config (n.init_ctrl_obj ctrl0 config.line_height) <;>
    cases lsda <;> simp [hfc]

/-- Counterexample to claim C6 as stated: with the draw-below option enabled
(`RenderConfig::draw_below`), a non-hold note strictly past
`time + FADEOUT_TIME` is still drawn (and undimmed — not in chart-debug
mode), so `Note::render` does not cull it there. -/
theorem c6_note_fadeout_cex :
    res0.time - FADEOUT_TIME ≥ noteC6.time ∧
    res0.config.chart_debug = false ∧
    noteC6.kind.isHold = false ∧
    Note.render noteC6 res0 rcfgBelow ctrlNone bpm120 false ≠ [] := by
  refine ⟨by norm_num [res0, noteC6, note4, FADEOUT_TIME], rfl, rfl, ?_⟩
  simp only [Note.render, noteRenderDraw, noteColor3, noteFadeCull, noteC6,
    note4, rcfgBelow, res0, cfg0,
    pack0, style0,
    texUnit, ctrlNone, object0, constAnim, JudgeStatus.isJudged, NoteKind.isHold,
    NoteKind.order, Note.init_ctrl_obj, Note.now_transform, CtrlObject.set_height,
    CtrlObject.yNow, CtrlObject.alphaNow, CtrlObject.sizeNow, CtrlObject.posNow,
    Object.now_color, Object.now_translation, Object.now_rotation,
    Object.scale_now_with_def, Anim.now, Resource.withModel, draw_center,
    draw_tex, draw_tex_pts, Resource.world_to_screen, Affine.comp, Affine.apply,
    Affine.id, Affine.appendScaling, Affine.appendTranslation, Quad4.map,
    Quad4.swap01, Quad4.swap23, Quad4.swap03, Quad4.swap12, Option.getD,
    FADEOUT_TIME]
  norm_num

set_option maxRecDepth 2000 in
set_option maxHeartbeats 2000000 in
/-- Amended claim C6: provided the draw-below render option is off, every
quad a non-hold note pushes has its alpha multiplied by
`(note.time - res.time)/FADEOUT_TIME + 1` with the numerator clamped to at
most 0 (`preFadeAlpha` is the alpha accumulated before that factor), and
once `FADEOUT_TIME = 0.16 s` past the note's time the note is culled —
`Note::render` pushes nothing (outside chart-debug mode, which instead dims
it by 0.2, folded into `preFadeAlpha`). With draw-below on, neither the fade
nor the cull applies. -/
theorem c6_note_fadeout_amended :
    (∀ (n : Note) (res : Resource) (config : RenderConfig) (ctrl : CtrlObject)
        (bpm : BpmList) (lsda : Bool),
      n.kind.isHold = false → config.draw_below = false →
      ∀ q ∈ Note.render n res config ctrl bpm lsda,
        q.v0.color.a
            = preFadeAlpha n res config ctrl lsda
              * (min (n.time - res.time) 0 / FADEOUT_TIME + 1) ∧
        q.v1.color.a
            = preFadeAlpha n res config ctrl lsda
              * (min (n.time - res.time) 0 / FADEOUT_TIME + 1) ∧
        q.v2.color.a
            = preFadeAlpha n res config ctrl lsda
              * (min (n.time - res.time) 0 / FADEOUT_TIME + 1) ∧
        q.v3.color.a
            = preFadeAlpha n res config ctrl lsda
              * (min (n.time - res.time) 0 / FADEOUT_TIME + 1)) ∧
    (∀ (n : Note) (res : Resource) (config : RenderConfig) (ctrl : CtrlObject)
        (bpm : BpmList) (lsda : Bool),
      n.kind.isHold = false → config.draw_below = false →
      res.config.chart_debug = false → res.time - FADEOUT_TIME ≥ n.time →
      Note.render n res config ctrl bpm lsda = []) := by
  constructor
  · intro n res config ctrl bpm lsda hnh hdb q hq
    unfold Note.render at hq
    split at hq
    · exact absurd hq (by simp)
    split at hq
    · exact absurd hq (by simp)
    split at hq
    · exact absurd hq (by simp)
    rw [hnh] at hq
    simp only [Bool.and_false, Bool.false_and, Bool.false_eq_true,
      if_false] at hq
    split at hq
    · exact absurd hq (by simp)
    revert hq
    rcases hkind : n.kind with _ | ⟨et, eh, es⟩ | _ | _ <;> intro hq
    · by_cases hfk : (n.fake && decide (res.time ≥ n.time)) = true
      · rw [if_pos hfk] at hq
        exact absurd hq (by simp)
      · rw [if_neg hfk] at hq
        have h := noteRenderDraw_alpha _ _ _ _ _ _ _ _ _ _ hdb hq
        rw [noteColor3_alpha] at h
        exact h
    · rw [hkind] at hnh
      simp [NoteKind.isHold] at hnh
    · simp only [] at hq
      by_cases hfk : (n.fake && decide (res.time ≥ n.time)) = true
      · rw [if_pos hfk] at hq
        exact absurd hq (by simp)
      · rw [if_neg hfk] at hq
        have h := noteRenderDraw_alpha _ _ _ _ _ _ _ _ _ _ hdb hq
        rw [noteColor3_alpha] at h
        exact h
    · simp only [] at hq
      by_cases hfk : (n.fake && decide (res.time ≥ n.time)) = true
      · rw [if_pos hfk] at hq
        exact absurd hq (by simp)
      · rw [if_neg hfk] at hq
        have h := noteRenderDraw_alpha _ _ _ _ _ _ _ _ _ _ hdb hq
        rw [noteColor3_alpha] at h
        exact h
  · intro n res config ctrl bpm lsda hnh hdb hcd hge
    have hdec : decide (res.time - FADEOUT_TIME ≥ n.time) = true := decide_eq_true hge
    by_cases hj : (n.judge.isJudged && !n.kind.isHold) = true
    · simp [Note.render, hj]
    · replace hj : (n.judge.isJudged && !n.kind.isHold) = false :=
        Bool.eq_false_iff.mpr hj
      by_cases h2 : (match config.appear_before with
          | some ab => decide (bpm.time_beats (bpm.beat n.time - ab) > res.time)
          | none => false) = true
      · simp [Note.render, hj, h2]
      · replace h2 := Bool.eq_false_iff.mpr h2
        by_cases h3 : (match config.invisible_time with
            | some it => decide (n.time - it < res.time)
            | none => false) = true
        · simp [Note.render, hj, h2, h3]
        · replace h3 := Bool.eq_false_iff.mpr h3
          simp [Note.render, noteFadeCull, hj, h2, h3, hdb, hcd, hnh, hdec]

/-- Witness for C6 (amended) at a concrete input: the unjudged click note at
time 0 rendered at `res.time = 1 > FADEOUT_TIME` with draw-below off pushes
nothing. -/
theorem c6_note_fadeout_amended_witness :
    Note.render noteC6 res0 rcfg0 ctrlNone bpm120 false = [] :=
  c6_note_fadeout_amended.2 noteC6 res0 rcfg0 ctrlNone bpm120 false rfl rfl rfl
    (by norm_num [res0, noteC6, note4, FADEOUT_TIME])

end RenderLib
